import Mathlib

/-!
Shallow embedding of the blob-decomposition subsystem of bb-storage
(pkg/digest, pkg/digest/blake3zcc, pkg/blobstore/buffer,
pkg/blobstore decomposing blob access), translated from the Go sources.

Modelling conventions:
- Go bytes are `Nat` values (< 256 wherever they originate from the code's
  own serialization, which always reduces modulo 256); byte strings are
  `List Nat`.
- Go `uint32` values are `Nat` reduced modulo 2^32 at every arithmetic
  operation, `uint64` values are `Nat` reduced modulo 2^64, `int64` values
  are `Int` with explicit two's-complement wrapping where Go can overflow.
- Fallible operations return `Except Status _`; `Status` carries the gRPC
  status code and message, mirroring `status.Errorf`.
- Go's `Digest` stores a single canonical string
  `hash ++ "-" ++ size ++ "-" ++ instance`; we store the three unpacked
  components (the accessors `GetHashString`/`GetSizeBytes`/`GetInstance`
  recover exactly these from the canonical string, and `Digest.value`
  rebuilds it). The algorithm-prefix tests `strings.HasPrefix(d.value,
  "B3Z:")` are equivalent to prefix tests on the hash component because
  the hash is the leading component of the value and ':' never occurs in
  the size/instance separator position.
-/

namespace BB

/-- gRPC status codes used by this subsystem (google.golang.org/grpc/codes). -/
inductive ErrCode where
  | invalidArgument
  | notFound
  | internal
  | loopLimit  -- marker for non-termination of a Go loop; see the fuel comments
  deriving DecidableEq, Repr

/-- A gRPC status: code plus message (status.Errorf). -/
structure Status where
  code : ErrCode
  msg : String
  deriving DecidableEq, Repr

/-- util.StatusWrap: prepends context to the message, keeps the code. -/
def statusWrap (context : String) (s : Status) : Status :=
  { code := s.code, msg := context ++ ": " ++ s.msg }

/-! ## Go string helpers

All strings handled by this code are ASCII, so Go's byte-based
`strings.HasPrefix` and byte slicing `s[n:]` coincide with the
character-based operations below. -/

/-- Go `strings.HasPrefix(s, pre)`. -/
def goStartsWith (s pre : String) : Bool :=
  pre.toList.isPrefixOf s.toList

/-- Go byte slicing `s[n:]` (ASCII strings). -/
def goDropChars (s : String) (n : Nat) : String :=
  String.mk (s.toList.drop n)

/-! ## Go integer helpers -/

/-- Go `uint64(x)` of an `int64` value: two's-complement reinterpretation. -/
def toU64 (x : Int) : Nat := (x % (2 ^ 64 : Int)).toNat

/-- Go `int64(u)` of a `uint64` value. -/
def ofU64 (u : Nat) : Int :=
  let v : Nat := u % 2 ^ 64
  if v < 2 ^ 63 then (v : Int) else (v : Int) - 2 ^ 64

/-- Wrap an unbounded integer to Go `int64` (two's complement). -/
def wrap64 (x : Int) : Int := (x + 2 ^ 63) % 2 ^ 64 - 2 ^ 63

/-- Go `int64` division: truncation toward zero (both operands
non-negative in every use in this code base). -/
def goDiv (a b : Int) : Int :=
  if (0 ≤ a) = (0 ≤ b) then ((a.natAbs / b.natAbs : Nat) : Int)
  else -((a.natAbs / b.natAbs : Nat) : Int)

/-- Go `int64` remainder: `a - b * (a / b)` with truncating division. -/
def goMod (a b : Int) : Int := a - b * goDiv a b

/-! ## Digest (pkg/digest/digest.go) -/

/-- digest.Digest. The Go struct holds the canonical string
`value = hash ++ "-" ++ size ++ "-" ++ instance`; we hold the unpacked
components (see the header comment). `sizeBytes` is declared first so
that derived equality tests compare it before the hash string. -/
structure Digest where
  sizeBytes : Int
  hashString : String   -- includes the "B3Z:"/"B3ZM:" algorithm prefix if any
  instanceName : String
  deriving DecidableEq, Repr

/-- The canonical string stored inside the Go Digest struct. -/
def Digest.value (d : Digest) : String :=
  d.hashString ++ "-" ++ toString d.sizeBytes ++ "-" ++ d.instanceName

/-- digest.BadDigest. -/
def BadDigest : Digest := { sizeBytes := 0, hashString := "", instanceName := "" }

/-- newDigestUnchecked. -/
def newDigestUnchecked (instanceName hash : String) (sizeBytes : Int) : Digest :=
  { sizeBytes := sizeBytes, hashString := hash, instanceName := instanceName }

/-- newDigestBLAKE3ZCC: only the size is validated (the hash is not:
`// TODO: Validate hash!`). -/
def newDigestBLAKE3ZCC (instanceName hash : String) (sizeBytes : Int) :
    Except Status Digest :=
  if sizeBytes < 0 then
    .error ⟨.invalidArgument, "Invalid digest size: " ++ toString sizeBytes ++ " bytes"⟩
  else
    .ok { sizeBytes := sizeBytes, hashString := "B3Z:" ++ hash, instanceName := instanceName }

/-- newDigestBLAKE3ZCCManifest: only the size is validated. -/
def newDigestBLAKE3ZCCManifest (instanceName hash : String) (sizeBytes : Int) :
    Except Status Digest :=
  if sizeBytes < 0 then
    .error ⟨.invalidArgument, "Invalid digest size: " ++ toString sizeBytes ++ " bytes"⟩
  else
    .ok { sizeBytes := sizeBytes, hashString := "B3ZM:" ++ hash, instanceName := instanceName }

/-- Character test used by newDigestOther: `(c < '0' || c > '9') && (c < 'a' || c > 'f')`. -/
def isNonHexChar (c : Char) : Bool :=
  (c < '0' || c > '9') && (c < 'a' || c > 'f')

/-- The hash lengths accepted by newDigestOther:
md5/sha1/sha256/sha384/sha512, in hex characters. -/
def validHashLength (l : Nat) : Bool :=
  l == 32 || l == 40 || l == 64 || l == 96 || l == 128

/-- newDigestOther: validates size, hash length and hash characters. -/
def newDigestOther (instanceName hash : String) (sizeBytes : Int) :
    Except Status Digest :=
  if sizeBytes < 0 then
    .error ⟨.invalidArgument, "Invalid digest size: " ++ toString sizeBytes ++ " bytes"⟩
  else if ¬ validHashLength hash.length then
    .error ⟨.invalidArgument, "Unknown digest hash length: " ++ toString hash.length ++ " characters"⟩
  else if hash.toList.any isNonHexChar then
    .error ⟨.invalidArgument, "Non-hexadecimal character in digest hash"⟩
  else
    .ok (newDigestUnchecked instanceName hash sizeBytes)

/-- digest.NewDigest: dispatches on the hash-string prefix. -/
def newDigest (instanceName hash : String) (sizeBytes : Int) : Except Status Digest :=
  if goStartsWith hash "B3Z:" then
    newDigestBLAKE3ZCC instanceName (goDropChars hash 4) sizeBytes
  else if goStartsWith hash "B3ZM:" then
    newDigestBLAKE3ZCCManifest instanceName (goDropChars hash 5) sizeBytes
  else
    newDigestOther instanceName hash sizeBytes

/-! ## Manifest geometry (digest.go: ToManifest and helpers) -/

/-- Size of a serialized BLAKE3ZCC Merkle tree chunk node. -/
def blake3zccChunkNodeSizeBytes : Int := 97

/-- Size of a serialized BLAKE3ZCC Merkle tree parent node. -/
def blake3zccParentNodeSizeBytes : Int := 64

/-- convertSizeToBlockCount: `int64((uint64(S) + uint64(B) - 1) / uint64(B))`. -/
def convertSizeToBlockCount (blobSizeBytes blockSizeBytes : Int) : Int :=
  ofU64 (((toU64 blobSizeBytes + toU64 blockSizeBytes + (2 ^ 64 - 1)) % 2 ^ 64) / toU64 blockSizeBytes)

/-- blake3zccManifestParser (pkg/digest/blake3zcc_manifest_parser.go):
the data captured by newBLAKE3ZCCManifestParser. -/
structure ManifestParser where
  instanceName : String
  blobSizeBytes : Int
  blockSizeBytes : Int
  hashSizeBytes : Nat
  deriving DecidableEq, Repr

/-- Digest.ToManifest. Returns `none` where Go returns ok=false. The
manifest size arithmetic is Go int64 arithmetic and wraps on overflow
(`count * 64` and `+ 33` are int64 operations). -/
def Digest.toManifest (d : Digest) (blockSizeBytes : Int) :
    Option (Digest × ManifestParser) :=
  if ¬ (goStartsWith d.hashString "B3Z:") then none
  else if d.sizeBytes ≤ blockSizeBytes then none
  else
    let count := convertSizeToBlockCount d.sizeBytes blockSizeBytes
    let manifestSizeBytes := wrap64 (count * blake3zccParentNodeSizeBytes)
    let lastBlockSizeBytes := goMod d.sizeBytes blockSizeBytes
    let manifestSizeBytes :=
      if 0 < lastBlockSizeBytes ∧ lastBlockSizeBytes ≤ 1024 then
        wrap64 (manifestSizeBytes + (blake3zccChunkNodeSizeBytes - blake3zccParentNodeSizeBytes))
      else manifestSizeBytes
    let hash := goDropChars d.hashString 4
    some ({ sizeBytes := manifestSizeBytes,
            hashString := "B3ZM:" ++ hash,
            instanceName := d.instanceName },
          { instanceName := d.instanceName,
            blobSizeBytes := d.sizeBytes,
            blockSizeBytes := blockSizeBytes,
            hashSizeBytes := hash.length / 2 })


/-! ## Arithmetic lemmas about the Go integer helpers -/

theorem toU64_of_nonneg (x : Int) (h0 : 0 ≤ x) (h1 : x < 2 ^ 64) :
    toU64 x = x.toNat := by
  unfold toU64
  rw [Int.emod_eq_of_lt h0 (by exact_mod_cast h1)]

theorem ofU64_small (u : Nat) (h : u < 2 ^ 63) : ofU64 u = (u : Int) := by
  simp only [ofU64]
  rw [Nat.mod_eq_of_lt (by omega), if_pos h]

theorem wrap64_id (x : Int) (h0 : -(2 ^ 63) ≤ x) (h1 : x < 2 ^ 63) :
    wrap64 x = x := by
  unfold wrap64
  omega

theorem goDiv_of_nonneg (a b : Int) (ha : 0 ≤ a) (hb : 0 ≤ b) :
    goDiv a b = ((a.toNat / b.toNat : Nat) : Int) := by
  have h1 : a.natAbs = a.toNat := by omega
  have h2 : b.natAbs = b.toNat := by omega
  unfold goDiv
  rw [if_pos (by simp [ha, hb]), h1, h2]

theorem goMod_of_nonneg (a b : Int) (ha : 0 ≤ a) (hb : 0 < b) :
    goMod a b = ((a.toNat % b.toNat : Nat) : Int) := by
  have h := Nat.div_add_mod a.toNat b.toNat
  unfold goMod
  rw [goDiv_of_nonneg a b ha (le_of_lt hb)]
  have hba : b * ((a.toNat / b.toNat : Nat) : Int) =
      ((b.toNat * (a.toNat / b.toNat) : Nat) : Int) := by
    push_cast [Int.toNat_of_nonneg (le_of_lt hb)]
    ring
  rw [hba]
  omega

/-- Block count as an unbounded natural number: `⌈S / B⌉`. -/
def blockCountNat (S B : Nat) : Nat := (S + B - 1) / B

theorem convertSizeToBlockCount_eq (S B : Int)
    (hb : 0 < B) (hsb : B ≤ S) (hs : S < 2 ^ 63) :
    convertSizeToBlockCount S B = ((blockCountNat S.toNat B.toNat : Nat) : Int) := by
  have hs0 : 0 ≤ S := le_trans (le_of_lt hb) hsb
  unfold convertSizeToBlockCount
  rw [toU64_of_nonneg S hs0 (by omega), toU64_of_nonneg B (le_of_lt hb) (by omega)]
  have hmod : (S.toNat + B.toNat + (2 ^ 64 - 1)) % 2 ^ 64 = S.toNat + B.toNat - 1 := by
    omega
  rw [hmod]
  have hexp : (S.toNat + 1) * B.toNat = S.toNat * B.toNat + B.toNat := by ring
  have hmul : S.toNat * 1 ≤ S.toNat * B.toNat := Nat.mul_le_mul_left _ (by omega)
  have hq : (S.toNat + B.toNat - 1) / B.toNat < S.toNat + 1 := by
    rw [Nat.div_lt_iff_lt_mul (by omega), hexp]
    omega
  rw [ofU64_small _ (by omega)]
  rfl

/-- The manifest size as the specification words it: `⌈S / B⌉ * 64` plus
an extra `97 - 64 = 33` bytes exactly when `S mod B` lies in `(0, 1024]`.
This is the spec-side definition compared against `Digest.toManifest`. -/
def manifestSizeSpec (S B : Nat) : Nat :=
  blockCountNat S B * 64 + (if 0 < S % B ∧ S % B ≤ 1024 then 33 else 0)

/-! ## C3 -/

/-- C3: `ToManifest(blockSize)` succeeds (ok=true) precisely for digests
whose hash carries the BLAKE3ZCC (`B3Z:`) prefix and whose declared size
strictly exceeds the block size; in particular a BLAKE3ZCC digest of size
exactly the block size is refused, one of size one byte larger is
accepted, and every non-BLAKE3ZCC digest is refused. -/
theorem toManifest_isSome_iff (d : Digest) (blockSizeBytes : Int) :
    (d.toManifest blockSizeBytes).isSome ↔
      (goStartsWith d.hashString "B3Z:" ∧ blockSizeBytes < d.sizeBytes) := by
  unfold Digest.toManifest
  by_cases h1 : goStartsWith d.hashString "B3Z:" <;>
    by_cases h2 : d.sizeBytes ≤ blockSizeBytes <;>
      simp [h1, h2] <;> omega

/-! ## C4 -/

/-- Digest used in the C4 counterexample: a well-formed BLAKE3ZCC digest
of declared size 2^58 bytes. -/
def c4Digest : Digest :=
  { sizeBytes := 2 ^ 58,
    hashString := "B3Z:00112233445566778899aabbccddeeff00112233445566778899aabbccddeeff",
    instanceName := "" }

/-- C4 counterexample: for blob size `S = 2^58` and block size `B = 2`
the claimed manifest size is `⌈S/B⌉ * 64 = 2^63`, but the Go int64
multiplication `count * 64` overflows and the manifest digest produced by
`ToManifest` carries the wrapped (negative) size `-2^63`. -/
theorem toManifest_size_overflow :
    ((c4Digest.toManifest 2).map fun p => p.1.sizeBytes) =
        some (-9223372036854775808 : Int) ∧
      (manifestSizeSpec (2 ^ 58) 2 : Int) = 9223372036854775808 := by
  constructor
  · decide
  · decide

/-- C4 (amended): for every BLAKE3ZCC digest of declared size `S` and
block size `B` with `0 < B < S < 2^63`, **provided the resulting size
`⌈S/B⌉ * 64 (+ 33)` fits in a signed 64-bit integer** (for larger values
the Go int64 arithmetic wraps around, see `toManifest_size_overflow`),
the manifest digest returned by `ToManifest(B)` has exactly that size:
`⌈S/B⌉ * 64` bytes plus an extra 33 bytes exactly when `S mod B` lies in
`(0, 1024]` — a pure function of `S` and `B`, independent of content. -/
theorem toManifest_size_eq (d : Digest) (B : Int)
    (hpre : goStartsWith d.hashString "B3Z:")
    (hb : 0 < B) (hsb : B < d.sizeBytes)
    (hs63 : d.sizeBytes < 2 ^ 63)
    (hfit : manifestSizeSpec d.sizeBytes.toNat B.toNat < 2 ^ 63) :
    ((d.toManifest B).map fun p => p.1.sizeBytes) =
      some ((manifestSizeSpec d.sizeBytes.toNat B.toNat : Nat) : Int) := by
  have hs0 : 0 ≤ d.sizeBytes := le_trans (le_of_lt hb) (le_of_lt hsb)
  have hcount := convertSizeToBlockCount_eq d.sizeBytes B hb (le_of_lt hsb) hs63
  have hmod := goMod_of_nonneg d.sizeBytes B hs0 hb
  unfold Digest.toManifest
  rw [if_neg (by simp [hpre]), if_neg (not_le.mpr hsb)]
  simp only [Option.map_some']
  rw [hcount, hmod]
  unfold manifestSizeSpec at hfit ⊢
  unfold blake3zccParentNodeSizeBytes blake3zccChunkNodeSizeBytes
  set q := blockCountNat d.sizeBytes.toNat B.toNat with hqdef
  set r := d.sizeBytes.toNat % B.toNat with hrdef
  by_cases hcase : 0 < r ∧ r ≤ 1024
  · rw [if_pos hcase] at hfit ⊢
    rw [if_pos (by exact_mod_cast hcase)]
    rw [wrap64_id ((q : Int) * 64) (by push_cast; omega) (by push_cast; omega)]
    rw [wrap64_id ((q : Int) * 64 + (97 - 64)) (by push_cast; omega) (by push_cast; omega)]
    push_cast
    ring
  · rw [if_neg hcase] at hfit ⊢
    rw [if_neg (by push_cast; omega)]
    rw [wrap64_id ((q : Int) * 64) (by push_cast; omega) (by push_cast; omega)]
    push_cast
    ring

/-- Digest from the repository's own tests: the 16 KiB + 1 B blob. -/
def c4WitnessDigest : Digest :=
  { sizeBytes := 16385,
    hashString := "B3Z:091108a2b65e2ae62b852eb3b25296badea4202048daf726e9411bfc12840d0b",
    instanceName := "instance" }

/-- Witness for `toManifest_size_eq`: with 8 KiB blocks, the 16 KiB + 1 B
blob requires a manifest of 64 + 64 + 97 = 225 bytes. -/
theorem toManifest_size_eq_witness :
    ((c4WitnessDigest.toManifest 8192).map fun p => p.1.sizeBytes) = some 225 := by
  have h := toManifest_size_eq c4WitnessDigest 8192 (by decide) (by decide) (by decide)
      (by decide) (by decide)
  rw [h]
  decide

/-! ## C5 -/

/-- The gRPC code of the error of a fallible result, if any. -/
def errCode {α : Type} : Except Status α → Option ErrCode
  | .error s => some s.code
  | .ok _ => none

/-- C5 counterexample: `NewDigest` accepts the malformed hash `B3Z:zz`
(wrong length, non-hexadecimal characters) with a non-negative size,
because the BLAKE3ZCC construction path does not validate the hash; the
claim demands an `InvalidArgument` failure here. -/
theorem newDigest_malformed_b3z_accepted :
    (newDigest "" "B3Z:zz" 5).isOk = true ∧
      validHashLength "zz".length = false ∧
      isNonHexChar 'z' = true := by
  refine ⟨?_, ?_, ?_⟩ <;> decide

/-- C5 (amended): `NewDigest` fails with `InvalidArgument` on a negative
size for every hash (including `B3Z:`/`B3ZM:`-prefixed ones); for hashes
**without** a `B3Z:`/`B3ZM:` prefix and a non-negative size it fails with
`InvalidArgument` exactly when the hash length is not one of the known
digest lengths or the hash contains a non-hexadecimal character.
`B3Z:`/`B3ZM:`-prefixed hashes are accepted without any hash validation
(see `newDigest_malformed_b3z_accepted`). -/
theorem newDigest_validation (instanceName hash : String) (sizeBytes : Int) :
    (sizeBytes < 0 →
      errCode (newDigest instanceName hash sizeBytes) = some .invalidArgument) ∧
    (0 ≤ sizeBytes →
      goStartsWith hash "B3Z:" = false →
      goStartsWith hash "B3ZM:" = false →
      (errCode (newDigest instanceName hash sizeBytes) = some .invalidArgument ↔
        (validHashLength hash.length = false ∨ hash.toList.any isNonHexChar = true))) := by
  constructor
  · intro hneg
    unfold newDigest newDigestBLAKE3ZCC newDigestBLAKE3ZCCManifest newDigestOther
    by_cases h1 : goStartsWith hash "B3Z:" <;>
      by_cases h2 : goStartsWith hash "B3ZM:" <;>
        simp [h1, h2, hneg, errCode]
  · intro hpos h1 h2
    unfold newDigest newDigestOther
    rw [h1, h2]
    simp only [Bool.false_eq_true, if_false]
    rw [if_neg (not_lt.mpr hpos)]
    by_cases h3 : validHashLength hash.length
    · rw [if_neg (by simp [h3])]
      cases h4 : hash.toList.any isNonHexChar with
      | true => simp [errCode, h3]
      | false => simp [errCode, h3, newDigestUnchecked]
    · rw [if_pos (by simp [h3])]
      have h3f : validHashLength hash.length = false := by
        revert h3; cases validHashLength hash.length <;> simp
      simp [errCode, h3f]

/-- Witness for `newDigest_validation`: a negative size is rejected, and
for the unprefixed malformed hash `zz` the amended criterion holds. -/
theorem newDigest_validation_witness :
    errCode (newDigest "" "8b1a9953c4611296a827abf8c47804d7" (-1)) = some .invalidArgument ∧
    (errCode (newDigest "" "zz" 5) = some .invalidArgument ↔
      (validHashLength "zz".length = false ∨ "zz".toList.any isNonHexChar = true)) :=
  ⟨(newDigest_validation "" "8b1a9953c4611296a827abf8c47804d7" (-1)).1 (by decide),
   (newDigest_validation "" "zz" 5).2 (by decide) (by decide) (by decide)⟩

/-! ## BLAKE3ZCC engine (pkg/digest/blake3zcc/blake3.go) -/

/-- Reduce to a Go `uint32`. -/
def u32 (x : Nat) : Nat := x % 2 ^ 32

/-- Go `uint32` addition. -/
def u32add (x y : Nat) : Nat := (x + y) % 2 ^ 32

/-- Go `bits.RotateLeft32(x, -n)`: rotate right by `n` (0 < n < 32). -/
def rotr32 (x n : Nat) : Nat :=
  (x % 2 ^ 32) / 2 ^ n + (x % 2 ^ 32) % 2 ^ n * 2 ^ (32 - n)

/-- Values for input d of the compression function (table 3, page 6). -/
def flagChunkStart : Nat := 1
def flagChunkEnd : Nat := 2
def flagParent : Nat := 4
def flagRoot : Nat := 8

/-- Sizes of blocks and chunks of BLAKE3's Merkle tree. -/
def maximumBlockSize : Nat := 64
def maximumBlocksPerChunk : Nat := 1024 / 64

/-- Initialization vectors (table 1, page 5). -/
def iv : List Nat :=
  [0x6a09e667, 0xbb67ae85, 0x3c6ef372, 0xa54ff53a,
   0x510e527f, 0x9b05688c, 0x1f83d9ab, 0x5be0cd19]

/-- Result of the G function: the four updated state words. -/
structure GState where
  a : Nat
  b : Nat
  c : Nat
  d : Nat

/-- The G function (page 5 of the BLAKE3 spec, as transcribed in Go). -/
def gfun (a b c d m0 m1 : Nat) : GState :=
  let a := u32add (u32add a b) m0
  let d := rotr32 (Nat.xor d a) 16
  let c := u32add c d
  let b := rotr32 (Nat.xor b c) 12
  let a := u32add (u32add a b) m1
  let d := rotr32 (Nat.xor d a) 8
  let c := u32add c d
  let b := rotr32 (Nat.xor b c) 7
  ⟨a, b, c, d⟩

/-- The BLAKE3 compression function (pages 4 to 6), 7 unrolled rounds
exactly as in the Go source. `h` has 8 words, `m` has 16 words. -/
def compress (h m : List Nat) (t : Nat) (b d : Nat) : List Nat :=
  let hv := fun i => u32 (h.getD i 0)
  let mv := fun i => u32 (m.getD i 0)
  let v0 := hv 0
  let v1 := hv 1
  let v2 := hv 2
  let v3 := hv 3
  let v4 := hv 4
  let v5 := hv 5
  let v6 := hv 6
  let v7 := hv 7
  let v8 := iv.getD 0 0
  let v9 := iv.getD 1 0
  let v10 := iv.getD 2 0
  let v11 := iv.getD 3 0
  let v12 := u32 t
  let v13 := u32 (t / 2 ^ 32)
  let v14 := u32 b
  let v15 := u32 d
  let ⟨v0, v4, v8, v12⟩ := gfun v0 v4 v8 v12 (mv 0) (mv 1)
  let ⟨v1, v5, v9, v13⟩ := gfun v1 v5 v9 v13 (mv 2) (mv 3)
  let ⟨v2, v6, v10, v14⟩ := gfun v2 v6 v10 v14 (mv 4) (mv 5)
  let ⟨v3, v7, v11, v15⟩ := gfun v3 v7 v11 v15 (mv 6) (mv 7)
  let ⟨v0, v5, v10, v15⟩ := gfun v0 v5 v10 v15 (mv 8) (mv 9)
  let ⟨v1, v6, v11, v12⟩ := gfun v1 v6 v11 v12 (mv 10) (mv 11)
  let ⟨v2, v7, v8, v13⟩ := gfun v2 v7 v8 v13 (mv 12) (mv 13)
  let ⟨v3, v4, v9, v14⟩ := gfun v3 v4 v9 v14 (mv 14) (mv 15)
  let ⟨v0, v4, v8, v12⟩ := gfun v0 v4 v8 v12 (mv 2) (mv 6)
  let ⟨v1, v5, v9, v13⟩ := gfun v1 v5 v9 v13 (mv 3) (mv 10)
  let ⟨v2, v6, v10, v14⟩ := gfun v2 v6 v10 v14 (mv 7) (mv 0)
  let ⟨v3, v7, v11, v15⟩ := gfun v3 v7 v11 v15 (mv 4) (mv 13)
  let ⟨v0, v5, v10, v15⟩ := gfun v0 v5 v10 v15 (mv 1) (mv 11)
  let ⟨v1, v6, v11, v12⟩ := gfun v1 v6 v11 v12 (mv 12) (mv 5)
  let ⟨v2, v7, v8, v13⟩ := gfun v2 v7 v8 v13 (mv 9) (mv 14)
  let ⟨v3, v4, v9, v14⟩ := gfun v3 v4 v9 v14 (mv 15) (mv 8)
  let ⟨v0, v4, v8, v12⟩ := gfun v0 v4 v8 v12 (mv 3) (mv 4)
  let ⟨v1, v5, v9, v13⟩ := gfun v1 v5 v9 v13 (mv 10) (mv 12)
  let ⟨v2, v6, v10, v14⟩ := gfun v2 v6 v10 v14 (mv 13) (mv 2)
  let ⟨v3, v7, v11, v15⟩ := gfun v3 v7 v11 v15 (mv 7) (mv 14)
  let ⟨v0, v5, v10, v15⟩ := gfun v0 v5 v10 v15 (mv 6) (mv 5)
  let ⟨v1, v6, v11, v12⟩ := gfun v1 v6 v11 v12 (mv 9) (mv 0)
  let ⟨v2, v7, v8, v13⟩ := gfun v2 v7 v8 v13 (mv 11) (mv 15)
  let ⟨v3, v4, v9, v14⟩ := gfun v3 v4 v9 v14 (mv 8) (mv 1)
  let ⟨v0, v4, v8, v12⟩ := gfun v0 v4 v8 v12 (mv 10) (mv 7)
  let ⟨v1, v5, v9, v13⟩ := gfun v1 v5 v9 v13 (mv 12) (mv 9)
  let ⟨v2, v6, v10, v14⟩ := gfun v2 v6 v10 v14 (mv 14) (mv 3)
  let ⟨v3, v7, v11, v15⟩ := gfun v3 v7 v11 v15 (mv 13) (mv 15)
  let ⟨v0, v5, v10, v15⟩ := gfun v0 v5 v10 v15 (mv 4) (mv 0)
  let ⟨v1, v6, v11, v12⟩ := gfun v1 v6 v11 v12 (mv 11) (mv 2)
  let ⟨v2, v7, v8, v13⟩ := gfun v2 v7 v8 v13 (mv 5) (mv 8)
  let ⟨v3, v4, v9, v14⟩ := gfun v3 v4 v9 v14 (mv 1) (mv 6)
  let ⟨v0, v4, v8, v12⟩ := gfun v0 v4 v8 v12 (mv 12) (mv 13)
  let ⟨v1, v5, v9, v13⟩ := gfun v1 v5 v9 v13 (mv 9) (mv 11)
  let ⟨v2, v6, v10, v14⟩ := gfun v2 v6 v10 v14 (mv 15) (mv 10)
  let ⟨v3, v7, v11, v15⟩ := gfun v3 v7 v11 v15 (mv 14) (mv 8)
  let ⟨v0, v5, v10, v15⟩ := gfun v0 v5 v10 v15 (mv 7) (mv 2)
  let ⟨v1, v6, v11, v12⟩ := gfun v1 v6 v11 v12 (mv 5) (mv 3)
  let ⟨v2, v7, v8, v13⟩ := gfun v2 v7 v8 v13 (mv 0) (mv 1)
  let ⟨v3, v4, v9, v14⟩ := gfun v3 v4 v9 v14 (mv 6) (mv 4)
  let ⟨v0, v4, v8, v12⟩ := gfun v0 v4 v8 v12 (mv 9) (mv 14)
  let ⟨v1, v5, v9, v13⟩ := gfun v1 v5 v9 v13 (mv 11) (mv 5)
  let ⟨v2, v6, v10, v14⟩ := gfun v2 v6 v10 v14 (mv 8) (mv 12)
  let ⟨v3, v7, v11, v15⟩ := gfun v3 v7 v11 v15 (mv 15) (mv 1)
  let ⟨v0, v5, v10, v15⟩ := gfun v0 v5 v10 v15 (mv 13) (mv 3)
  let ⟨v1, v6, v11, v12⟩ := gfun v1 v6 v11 v12 (mv 0) (mv 10)
  let ⟨v2, v7, v8, v13⟩ := gfun v2 v7 v8 v13 (mv 2) (mv 6)
  let ⟨v3, v4, v9, v14⟩ := gfun v3 v4 v9 v14 (mv 4) (mv 7)
  let ⟨v0, v4, v8, v12⟩ := gfun v0 v4 v8 v12 (mv 11) (mv 15)
  let ⟨v1, v5, v9, v13⟩ := gfun v1 v5 v9 v13 (mv 5) (mv 0)
  let ⟨v2, v6, v10, v14⟩ := gfun v2 v6 v10 v14 (mv 1) (mv 9)
  let ⟨v3, v7, v11, v15⟩ := gfun v3 v7 v11 v15 (mv 8) (mv 6)
  let ⟨v0, v5, v10, v15⟩ := gfun v0 v5 v10 v15 (mv 14) (mv 10)
  let ⟨v1, v6, v11, v12⟩ := gfun v1 v6 v11 v12 (mv 2) (mv 12)
  let ⟨v2, v7, v8, v13⟩ := gfun v2 v7 v8 v13 (mv 3) (mv 4)
  let ⟨v3, v4, v9, v14⟩ := gfun v3 v4 v9 v14 (mv 7) (mv 13)
  [Nat.xor v0 v8, Nat.xor v1 v9, Nat.xor v2 v10, Nat.xor v3 v11,
   Nat.xor v4 v12, Nat.xor v5 v13, Nat.xor v6 v14, Nat.xor v7 v15,
   Nat.xor v8 (hv 0), Nat.xor v9 (hv 1), Nat.xor v10 (hv 2), Nat.xor v11 (hv 3),
   Nat.xor v12 (hv 4), Nat.xor v13 (hv 5), Nat.xor v14 (hv 6), Nat.xor v15 (hv 7)]

/-- Truncate the compression output to 256 bits (8 words). -/
def truncate (l : List Nat) : List Nat := l.take 8

/-! ## Merkle tree nodes (pkg/digest/blake3zcc/node.go) -/

/-- blake3zcc.Node. -/
structure Node where
  chainingValue : List Nat
  m : List Nat
  blockSize : Nat
  flags : Nat
  deriving DecidableEq, Repr

/-- blake3zcc.NewChunkNode. -/
def newChunkNode (chainingValue m : List Nat) (blockSize : Nat) (chunkStart : Bool) : Node :=
  { chainingValue := chainingValue, m := m, blockSize := blockSize,
    flags := flagChunkEnd ||| (if chunkStart then flagChunkStart else 0) }

/-- blake3zcc.NewParentNode. -/
def newParentNode (m : List Nat) : Node :=
  { chainingValue := iv, m := m, blockSize := maximumBlockSize, flags := flagParent }

/-- Little-endian bytes of a `uint32` value (binary.LittleEndian.PutUint32). -/
def putU32LE (v : Nat) : List Nat :=
  [v % 256, v / 256 % 256, v / 65536 % 256, v / 16777216 % 256]

/-- Read the byte at an index; Go bytes are < 256 by type, reads past the
end of a slice (a Go panic) are modelled as a zero byte. -/
def byteAt (bs : List Nat) (i : Nat) : Nat := bs.getD i 0 % 256

/-- binary.LittleEndian.Uint32. -/
def getU32LE (bs : List Nat) (i : Nat) : Nat :=
  byteAt bs i + 256 * byteAt bs (i + 1) + 65536 * byteAt bs (i + 2) +
    16777216 * byteAt bs (i + 3)

/-- Node.GetHashValue: the extendable-output function. Go appends whole
16-word compression outputs, truncating the trailing word group to reach
exactly `outputSizeBytes` bytes; this equals taking the first
`outputSizeBytes` bytes of the concatenated outputs. -/
def Node.getHashValue (n : Node) (outputSizeBytes : Nat) : List Nat :=
  ((List.range ((outputSizeBytes + 63) / 64)).bind fun counter =>
    (compress n.chainingValue n.m counter n.blockSize (n.flags ||| flagRoot)).bind
      putU32LE).take outputSizeBytes

/-! ## Chaining value stack (pkg/digest/blake3zcc/chaining_value_stack.go) -/

/-- The merge loop of ChainingValueStack.AppendNode: merge the top of the
stack while the running node count has a trailing one bit. The stack is
never empty when the loop body runs (the count of trailing one bits never
exceeds the stack depth); an empty stack is read as a zero chaining value
where Go would panic. The recursion is given explicit fuel so that it is
structural (and hence evaluates definitionally); the loop body runs at
most once per binary digit of the count. -/
def mergeStackAux : Nat → List (List Nat) → List Nat → Nat →
    List (List Nat) × List Nat
  | 0, stack, cv, _ => (stack, cv)
  | fuel + 1, stack, cv, t =>
    if t % 2 = 1 then
      let top := (stack.getLast?).getD []
      let m := top ++ cv
      mergeStackAux fuel stack.dropLast
        (truncate (compress iv m 0 maximumBlockSize flagParent)) (t / 2)
    else (stack, cv)

/-- The merge loop with its fuel instantiated: the count is at least
halved by every iteration, so `t + 1` steps always suffice. -/
def mergeStack (stack : List (List Nat)) (cv : List Nat) (t : Nat) :
    List (List Nat) × List Nat :=
  mergeStackAux (t + 1) stack cv t

/-- blake3zcc.ChainingValueStack. The top of the stack is the last list
element (Go appends at the end of a slice). -/
structure ChainingValueStack where
  stack : List (List Nat)
  totalNodes : Nat
  deriving DecidableEq, Repr

/-- blake3zcc.NewChainingValueStack. -/
def newChainingValueStack : ChainingValueStack := { stack := [], totalNodes := 0 }

/-- ChainingValueStack.AppendNode. -/
def ChainingValueStack.appendNode (s : ChainingValueStack) (n : Node) :
    ChainingValueStack :=
  let cv := truncate (compress n.chainingValue n.m 0 n.blockSize n.flags)
  let sc := mergeStack s.stack cv s.totalNodes
  { stack := sc.1 ++ [sc.2], totalNodes := s.totalNodes + 1 }

/-- The loop of ChainingValueStack.GetRootNode, processing the stack from
its top (= from the end; the argument is the reversed stack). -/
def rootLoopRev : List (List Nat) → Node → Node
  | [], n => n
  | top :: rest, n =>
    rootLoopRev rest
      (newParentNode (top ++ truncate (compress n.chainingValue n.m 0 n.blockSize n.flags)))

/-- ChainingValueStack.GetRootNode. -/
def ChainingValueStack.getRootNode (s : ChainingValueStack) (lastNode : Node) : Node :=
  rootLoopRev s.stack.reverse lastNode

/-! ## Chunk parser (pkg/digest/blake3zcc/chunk_parser.go) -/

/-- blake3zcc.ChunkParser. Go stores a fixed 64-byte array plus the count
of valid bytes; we store exactly the valid bytes (Go never reads the
stale suffix: complete blocks are read in full, and GetRootNode zero-pads
first). -/
structure ChunkParser where
  block : List Nat
  blocksRemaining : Nat
  chunkChainingValue : List Nat
  chunkStart : Bool
  chainingValueStack : ChainingValueStack
  deriving DecidableEq, Repr

/-- blake3zcc.NewChunkParser. -/
def newChunkParser : ChunkParser :=
  { block := [], blocksRemaining := maximumBlocksPerChunk, chunkChainingValue := iv,
    chunkStart := true, chainingValueStack := newChainingValueStack }

/-- ChunkParser.getBlock: the 16 little-endian words of the 64-byte block. -/
def getBlockWords (block : List Nat) : List Nat :=
  (List.range 16).map fun i => getU32LE block (4 * i)

/-- The body of ChunkParser.Write that runs when the current 64-byte
block is complete. -/
def ChunkParser.processBlock (p : ChunkParser) : ChunkParser :=
  let m := getBlockWords p.block
  if p.blocksRemaining = 1 then
    let n := newChunkNode p.chunkChainingValue m maximumBlockSize false
    { block := [], blocksRemaining := maximumBlocksPerChunk, chunkChainingValue := iv,
      chunkStart := true, chainingValueStack := p.chainingValueStack.appendNode n }
  else
    { block := [], blocksRemaining := p.blocksRemaining - 1,
      chunkChainingValue :=
        truncate (compress p.chunkChainingValue m 0 maximumBlockSize
          (if p.chunkStart then flagChunkStart else 0)),
      chunkStart := false, chainingValueStack := p.chainingValueStack }

/-- The block buffer is empty after processing a complete block. -/
theorem ChunkParser.processBlock_block (p : ChunkParser) : p.processBlock.block = [] := by
  unfold ChunkParser.processBlock
  split <;> rfl

/-- The loop of ChunkParser.Write, with explicit structural fuel: every
iteration after the first consumes at least one input byte, so
`b.length + 1` steps always suffice. -/
def ChunkParser.writeAux : Nat → ChunkParser → List Nat → ChunkParser
  | 0, p, _ => p
  | fuel + 1, p, b =>
    let n := min (maximumBlockSize - p.block.length) b.length
    let p1 : ChunkParser := { p with block := p.block ++ (b.take n).map (fun x => x % 256) }
    let b1 := b.drop n
    if b1.isEmpty then p1
    else ChunkParser.writeAux fuel p1.processBlock b1

/-- ChunkParser.Write. -/
def ChunkParser.write (p : ChunkParser) (b : List Nat) : ChunkParser :=
  ChunkParser.writeAux (b.length + 1) p b

/-- ChunkParser.GetRootNode: zero-pads the final block and terminates the
Merkle tree. -/
def ChunkParser.getRootNode (p : ChunkParser) : Node :=
  let block := p.block ++ List.replicate (maximumBlockSize - p.block.length) 0
  let m := getBlockWords block
  let n := newChunkNode p.chunkChainingValue m p.block.length p.chunkStart
  p.chainingValueStack.getRootNode n

/-! ## Manifest codec (pkg/digest/blake3zcc_manifest.go) -/

/-- unmarshalBLAKE3ZCCChunkNode: chaining value (8 words LE), message
(16 words LE), then one packed byte `block_size (7 bits) | chunk_start
(high bit)`. -/
def unmarshalBLAKE3ZCCChunkNode (entry : List Nat) : Node :=
  let chainingValue := (List.range 8).map fun i => getU32LE entry (4 * i)
  let m := (List.range 16).map fun i => getU32LE entry (32 + 4 * i)
  let blockSizeBytes := byteAt entry 96 % 128
  let chunkStart := decide (128 ≤ byteAt entry 96)
  newChunkNode chainingValue m blockSizeBytes chunkStart

/-- marshalBLAKE3ZCCChunkNode. Go reads the fields through GetChunkData
(which panics unless the node carries the CHUNK_END flag; every call site
passes a chunk node). `byte(blockSize) &^ 0x80` is `% 256 % 128`. -/
def marshalBLAKE3ZCCChunkNode (n : Node) : List Nat :=
  (n.chainingValue.bind putU32LE) ++ (n.m.bind putU32LE) ++
    [n.blockSize % 256 % 128 +
      (if n.flags &&& flagChunkStart ≠ 0 then 128 else 0)]

/-- unmarshalBLAKE3ZCCParentNode: the message (16 words LE). -/
def unmarshalBLAKE3ZCCParentNode (entry : List Nat) : Node :=
  newParentNode ((List.range 16).map fun i => getU32LE entry (4 * i))

/-- marshalBLAKE3ZCCParentNode. Go reads the message through
GetParentData (which panics unless the node is a parent node). -/
def marshalBLAKE3ZCCParentNode (n : Node) : List Nat :=
  n.m.bind putU32LE

/-! ## Manifest parser (pkg/digest/blake3zcc_manifest_parser.go) -/

/-- hex.EncodeToString's digit table. -/
def hexDigitChar (n : Nat) : Char := "0123456789abcdef".toList.getD n '0'

/-- hex.EncodeToString: per byte, high then low nibble. -/
def hexEncode (bs : List Nat) : String :=
  String.mk (bs.bind fun b => [hexDigitChar (b % 256 / 16), hexDigitChar (b % 16)])

/-- blake3zccManifestParser.convertNodeToDigest: the digest value is
`B3Z:<hex of the node's hash> - blockSizeBytes - instance`. -/
def ManifestParser.convertNodeToDigest (mp : ManifestParser) (n : Node)
    (blockSizeBytes : Int) : Digest :=
  { sizeBytes := blockSizeBytes,
    hashString := "B3Z:" ++ hexEncode (n.getHashValue mp.hashSizeBytes),
    instanceName := mp.instanceName }

/-- blake3zccManifestParser.GetBlockDigest. Go slices
`manifest[block*64:]`; reads past the end of the manifest (a Go panic)
are modelled as zero bytes by `byteAt`. -/
def ManifestParser.getBlockDigest (mp : ManifestParser) (manifest : List Nat)
    (off : Int) : Digest × Int :=
  let block := goDiv off mp.blockSizeBytes
  let blockSizeBytes :=
    if block = convertSizeToBlockCount mp.blobSizeBytes mp.blockSizeBytes - 1 then
      goMod mp.blobSizeBytes mp.blockSizeBytes
    else mp.blockSizeBytes
  let entry := manifest.drop (block * blake3zccParentNodeSizeBytes).toNat
  let n :=
    if blockSizeBytes ≤ 1024 then unmarshalBLAKE3ZCCChunkNode entry
    else unmarshalBLAKE3ZCCParentNode entry
  (mp.convertNodeToDigest n blockSizeBytes, block * mp.blockSizeBytes)

/-- blake3zccManifestParser.AppendBlockDigest: hashes the block, appends
its serialized node (chunk style for blocks of at most 1024 bytes, parent
style otherwise) and returns the block's digest. The Go function mutates
the manifest through a pointer and returns the digest; we return both. -/
def ManifestParser.appendBlockDigest (mp : ManifestParser) (manifest : List Nat)
    (block : List Nat) : List Nat × Digest :=
  let c := newChunkParser.write block
  let n := c.getRootNode
  let manifest' := manifest ++
    (if block.length ≤ 1024 then marshalBLAKE3ZCCChunkNode n
     else marshalBLAKE3ZCCParentNode n)
  (manifest', mp.convertNodeToDigest n (block.length : Int))

/-! ## C2 -/

/-- Manifest parser for a blob of 2050 bytes decomposed at block size
1025 (exactly two full blocks), as `ToManifest(1025)` constructs it. -/
def c2Parser : ManifestParser :=
  { instanceName := "instance", blobSizeBytes := 2050, blockSizeBytes := 1025,
    hashSizeBytes := 32 }

/-- A full 1025-byte block of zero bytes. -/
def c2Block : List Nat := List.replicate 1025 0

/-- The manifest after appending both blocks, and the digest
AppendBlockDigest returned for the second (final) block. -/
def c2Manifest : List Nat × Digest :=
  c2Parser.appendBlockDigest (c2Parser.appendBlockDigest [] c2Block).1 c2Block

set_option maxRecDepth 40000 in
/-- C2 fails on the code when the block size divides the blob size: for
the blob of `S = 2050` bytes at block size `B = 1025`, AppendBlockDigest
returned a digest of size 1025 for the final block, but GetBlockDigest at
the final block's starting offset `1*B = 1025` computes the block's size
as `S mod B = 0` — not the block's true length `B` — and returns a
different digest (it also misparses the 64-byte parent entry as a
97-byte chunk entry, reading past the end of the manifest, which in Go
is a slice-bounds panic). The block start offset is still `1025`. -/
theorem getBlockDigest_last_block_size_zero :
    (c2Parser.getBlockDigest c2Manifest.1 1025).1.sizeBytes = 0 ∧
    c2Manifest.2.sizeBytes = 1025 ∧
    (c2Parser.getBlockDigest c2Manifest.1 1025).1 ≠ c2Manifest.2 ∧
    (c2Parser.getBlockDigest c2Manifest.1 1025).2 = 1025 := by
  have h0 : (c2Parser.getBlockDigest c2Manifest.1 1025).1.sizeBytes = 0 := by decide
  have h1 : c2Manifest.2.sizeBytes = 1025 := by decide
  refine ⟨h0, h1, ?_, by decide⟩
  intro he
  rw [he, h1] at h0
  exact absurd h0 (by decide)

/-! ## Manifest hasher (pkg/digest/blake3zcc_manifest_hasher.go) -/

/-- The serialized node sizes as natural numbers, for buffer geometry
(the `Int` versions above serve the int64 manifest-size arithmetic). -/
def chunkNodeSizeNat : Nat := 97

/-- See `chunkNodeSizeNat`. -/
def parentNodeSizeNat : Nat := 64

/-- blake3zccManifestHasher. Go keeps a fixed 97-byte array plus the
count of valid bytes; we keep exactly the valid bytes. -/
structure ManifestHasher where
  entry : List Nat
  chainingValueStack : ChainingValueStack
  outputSizeBytes : Nat
  deriving DecidableEq, Repr

/-- newBLAKE3ZCCManifestHasher. -/
def newBLAKE3ZCCManifestHasher (outputSizeBytes : Nat) : ManifestHasher :=
  { entry := [], chainingValueStack := newChainingValueStack,
    outputSizeBytes := outputSizeBytes }

/-- blake3zccManifestHasher.Write: buffer input; whenever more than the
97-byte buffer is available, ingest a 64-byte parent node from the front
of the buffer and shift the remaining 33 bytes down. The recursion is
given explicit structural fuel so that it evaluates definitionally. -/
def ManifestHasher.writeAux : Nat → ManifestHasher → List Nat → ManifestHasher
  | 0, h, _ => h
  | fuel + 1, h, p =>
    let n := min (chunkNodeSizeNat - h.entry.length) p.length
    let h1 : ManifestHasher := { h with entry := h.entry ++ (p.take n).map (fun x => x % 256) }
    let p1 := p.drop n
    if p1.isEmpty then h1
    else
      let node := unmarshalBLAKE3ZCCParentNode h1.entry
      let h2 : ManifestHasher :=
        { entry := h1.entry.drop parentNodeSizeNat,
          chainingValueStack := h1.chainingValueStack.appendNode node,
          outputSizeBytes := h1.outputSizeBytes }
      ManifestHasher.writeAux fuel h2 p1

/-- blake3zccManifestHasher.Write, fuel instantiated: each iteration
after the first consumes at least one input byte. -/
def ManifestHasher.write (h : ManifestHasher) (p : List Nat) : ManifestHasher :=
  ManifestHasher.writeAux (p.length + 1) h p

/-- blake3zccManifestHasher.Sum: the residual buffer must hold exactly
one chunk node (97 bytes) or one parent node (64 bytes); any other
residual length is the Go panic "Manifest has invalid size", modelled as
`none`. -/
def ManifestHasher.sum (h : ManifestHasher) : Option (List Nat) :=
  if h.entry.length = chunkNodeSizeNat then
    some ((h.chainingValueStack.getRootNode
      (unmarshalBLAKE3ZCCChunkNode h.entry)).getHashValue h.outputSizeBytes)
  else if h.entry.length = parentNodeSizeNat then
    some ((h.chainingValueStack.getRootNode
      (unmarshalBLAKE3ZCCParentNode h.entry)).getHashValue h.outputSizeBytes)
  else none

/-! ## Blob hasher and digest generator (blake3zcc_blob_hasher.go, digest.go) -/

/-- The two hashers of this subsystem (Digest.NewHasher). The md5/sha
hashers returned for unprefixed digests are Go standard library work and
outside this subsystem (spec §1); they are represented by `none`. -/
inductive PartialHash where
  | blob (st : ChunkParser) (outputSizeBytes : Nat)
  | manifest (st : ManifestHasher)
  deriving DecidableEq, Repr

/-- Digest.NewHasher: dispatch on the hash-string prefix;
newBLAKE3ZCCBlobHasher wraps a ChunkParser. -/
def Digest.newHasher (d : Digest) : Option PartialHash :=
  if goStartsWith d.hashString "B3Z:" then
    some (.blob newChunkParser ((goDropChars d.hashString 4).length / 2))
  else if goStartsWith d.hashString "B3ZM:" then
    some (.manifest (newBLAKE3ZCCManifestHasher ((goDropChars d.hashString 5).length / 2)))
  else
    none

/-- hash.Hash.Write for the two hashers (both report writing all bytes). -/
def PartialHash.write : PartialHash → List Nat → PartialHash
  | .blob st o, p => .blob (st.write p) o
  | .manifest st, p => .manifest (st.write p)

/-- hash.Hash.Sum for the two hashers (blake3zccBlobHasher.Sum and
blake3zccManifestHasher.Sum; the latter can panic, hence `Option`). -/
def PartialHash.sumBytes : PartialHash → Option (List Nat)
  | .blob st o => some (st.getRootNode.getHashValue o)
  | .manifest st => st.sum

/-- digest.Generator. -/
structure Generator where
  instanceName : String
  partialHash : PartialHash
  sizeBytes : Int
  deriving DecidableEq, Repr

/-- Digest.NewGenerator (only defined for the two hashers of this
subsystem, see `Digest.newHasher`). -/
def Digest.newGenerator (d : Digest) : Option Generator :=
  d.newHasher.map fun h =>
    { instanceName := d.instanceName, partialHash := h, sizeBytes := 0 }

/-- Generator.Write: both hashers consume all bytes, so the tracked size
grows by the write's length. -/
def Generator.write (g : Generator) (p : List Nat) : Generator :=
  { g with partialHash := g.partialHash.write p,
           sizeBytes := g.sizeBytes + (p.length : Int) }

/-- Generator.Sum: `newDigestUnchecked(instance, hex(partialHash.Sum),
sizeBytes)` — note the bare hex encoding with no algorithm prefix. -/
def Generator.sum (g : Generator) : Option Digest :=
  g.partialHash.sumBytes.map fun hs =>
    newDigestUnchecked g.instanceName (hexEncode hs) g.sizeBytes

/-! ## C9 -/

/-- The residual buffer length of the manifest hasher as a function of
the total number of bytes written: the bytes still buffered after Write
has ingested as many leading 64-byte parent entries as the 97-byte
buffer forces out. -/
def targetLen (t : Nat) : Nat := if t ≤ 97 then t else (t - 98) % 64 + 34

theorem targetLen_le (t : Nat) : targetLen t ≤ 97 := by
  unfold targetLen
  split <;> omega

theorem targetLen_sub64 (t : Nat) (h : 98 ≤ t) : targetLen (t - 64) = targetLen t := by
  unfold targetLen
  by_cases h1 : t - 64 ≤ 97
  · rw [if_pos h1, if_neg (by omega)]
    omega
  · rw [if_neg h1, if_neg (by omega)]
    omega

theorem targetLen_comp (a b : Nat) : targetLen (targetLen a + b) = targetLen (a + b) := by
  unfold targetLen
  by_cases h1 : a ≤ 97
  · simp [h1]
  · rw [if_neg h1]
    by_cases h2 : (a - 98) % 64 + 34 + b ≤ 97
    · rw [if_pos h2, if_neg (by omega)]
      omega
    · rw [if_neg h2, if_neg (by omega)]
      omega

/-- One Write call leaves exactly `targetLen` buffered bytes (fuel
form; the fuel bound is one more write step when the buffer is full,
since the first iteration then consumes no input). -/
theorem ManifestHasher.writeAux_entry_length :
    ∀ (fuel : Nat) (h : ManifestHasher) (p : List Nat),
      h.entry.length ≤ 97 →
      p.length + (if h.entry.length = 97 then 1 else 0) ≤ fuel →
      (ManifestHasher.writeAux fuel h p).entry.length =
        targetLen (h.entry.length + p.length) := by
  intro fuel
  induction fuel with
  | zero =>
    intro h p hh hf
    have hp : p.length = 0 := by split at hf <;> omega
    simp only [ManifestHasher.writeAux]
    unfold targetLen
    rw [if_pos (by omega)]
    omega
  | succ fuel ih =>
    intro h p hh hf
    simp only [ManifestHasher.writeAux]
    split
    · rename_i hemp
      have hd : p.length - ((chunkNodeSizeNat - h.entry.length) ⊓ p.length) = 0 := by
        simp only [List.isEmpty_eq_true] at hemp
        have h2 := congrArg List.length hemp
        simpa using h2
      simp only [List.length_append, List.length_map, List.length_take]
      unfold targetLen chunkNodeSizeNat at hd ⊢
      split <;> omega
    · rename_i hemp
      have hd : 0 < p.length - ((chunkNodeSizeNat - h.entry.length) ⊓ p.length) := by
        simp only [List.isEmpty_eq_true] at hemp
        have h2 := List.length_pos.mpr hemp
        simpa using h2
      rw [ih _ _
        (by
          simp only [List.length_drop, List.length_append, List.length_map,
            List.length_take, chunkNodeSizeNat, parentNodeSizeNat]
          omega)
        (by
          simp only [List.length_drop, List.length_append, List.length_map,
            List.length_take, chunkNodeSizeNat, parentNodeSizeNat] at hd ⊢
          split at hf <;> split <;> omega)]
      simp only [List.length_drop, List.length_append, List.length_map,
        List.length_take, chunkNodeSizeNat, parentNodeSizeNat] at hd ⊢
      rw [min_assoc, min_self]
      rw [show h.entry.length + ((97 - h.entry.length) ⊓ p.length) - 64 +
            (p.length - (97 - h.entry.length) ⊓ p.length) =
          h.entry.length + p.length - 64 from by omega]
      exact targetLen_sub64 _ (by omega)

/-- One Write call leaves exactly `targetLen` buffered bytes. -/
theorem ManifestHasher.write_entry_length :
    ∀ (h : ManifestHasher) (p : List Nat), h.entry.length ≤ 97 →
      (h.write p).entry.length = targetLen (h.entry.length + p.length) := by
  intro h p hh
  unfold ManifestHasher.write
  exact ManifestHasher.writeAux_entry_length _ _ _ hh (by split <;> omega)

/-- Folding any sequence of Write calls leaves exactly `targetLen` of
the total written length in the buffer. -/
theorem foldl_write_entry_length (parts : List (List Nat)) (h : ManifestHasher)
    (hh : h.entry.length ≤ 97) :
    (parts.foldl ManifestHasher.write h).entry.length =
      targetLen (h.entry.length + (parts.map List.length).sum) := by
  induction parts generalizing h with
  | nil =>
    simp only [List.foldl_nil, List.map_nil, List.sum_nil, Nat.add_zero]
    unfold targetLen
    rw [if_pos hh]
  | cons q rest ih =>
    simp only [List.foldl_cons, List.map_cons, List.sum_cons]
    rw [ih (h.write q)
      (by rw [ManifestHasher.write_entry_length h q hh]; exact targetLen_le _)]
    rw [ManifestHasher.write_entry_length h q hh, targetLen_comp]
    congr 1
    omega

/-- C9: feeding any byte sequence of total length `64*n` with `n ≥ 1`
or `64*n + 97` to the BLAKE3ZCC manifest hasher, through any partitioning
into Write calls, leaves a residual buffered entry of exactly 64 or
exactly 97 bytes, so Sum never reaches the "Manifest has invalid size"
panic (modelled as `none`). -/
theorem manifestHasher_sum_no_panic (outputSizeBytes : Nat) (parts : List (List Nat))
    (hlen : (∃ n, 1 ≤ n ∧ (parts.map List.length).sum = 64 * n) ∨
            (∃ n, (parts.map List.length).sum = 64 * n + 97)) :
    ((parts.foldl ManifestHasher.write
        (newBLAKE3ZCCManifestHasher outputSizeBytes)).entry.length = 64 ∨
     (parts.foldl ManifestHasher.write
        (newBLAKE3ZCCManifestHasher outputSizeBytes)).entry.length = 97) ∧
    (parts.foldl ManifestHasher.write
        (newBLAKE3ZCCManifestHasher outputSizeBytes)).sum ≠ none := by
  have hfold := foldl_write_entry_length parts (newBLAKE3ZCCManifestHasher outputSizeBytes)
    (by simp [newBLAKE3ZCCManifestHasher])
  rw [show (newBLAKE3ZCCManifestHasher outputSizeBytes).entry.length = 0 from rfl,
    Nat.zero_add] at hfold
  have hval : (parts.foldl ManifestHasher.write
      (newBLAKE3ZCCManifestHasher outputSizeBytes)).entry.length = 64 ∨
      (parts.foldl ManifestHasher.write
        (newBLAKE3ZCCManifestHasher outputSizeBytes)).entry.length = 97 := by
    rw [hfold]
    unfold targetLen
    rcases hlen with ⟨n, hn1, hsum⟩ | ⟨n, hsum⟩ <;> rw [hsum] <;> split <;> omega
  refine ⟨hval, ?_⟩
  unfold ManifestHasher.sum chunkNodeSizeNat parentNodeSizeNat
  rcases hval with hv | hv <;> simp [hv]

/-- Witness for `manifestHasher_sum_no_panic`: one Write of 64 zero
bytes (`n = 1`). -/
theorem manifestHasher_sum_no_panic_witness :
    ((([List.replicate 64 0] : List (List Nat)).foldl ManifestHasher.write
        (newBLAKE3ZCCManifestHasher 32)).entry.length = 64 ∨
     (([List.replicate 64 0] : List (List Nat)).foldl ManifestHasher.write
        (newBLAKE3ZCCManifestHasher 32)).entry.length = 97) ∧
    (([List.replicate 64 0] : List (List Nat)).foldl ManifestHasher.write
        (newBLAKE3ZCCManifestHasher 32)).sum ≠ none :=
  manifestHasher_sum_no_panic 32 [List.replicate 64 0]
    (Or.inl ⟨1, by decide, by decide⟩)

/-! ## C10 -/

/-- Every character hex.EncodeToString produces is a lowercase hex
digit; in particular never 'B'. -/
theorem hexDigitChar_ne_B (n : Nat) : hexDigitChar n ≠ 'B' := by
  unfold hexDigitChar
  by_cases h : n < 16
  · interval_cases n <;> decide
  · rw [List.getD_eq_default]
    · decide
    · have hl : ("0123456789abcdef".toList).length = 16 := by decide
      omega

/-- A hex-encoded string never carries the `B3Z:` or `B3ZM:` algorithm
prefix. -/
theorem hexEncode_not_b3z (bs : List Nat) :
    goStartsWith (hexEncode bs) "B3Z:" = false ∧
    goStartsWith (hexEncode bs) "B3ZM:" = false := by
  unfold goStartsWith hexEncode
  cases bs with
  | nil => exact ⟨rfl, rfl⟩
  | cons b rest =>
    have hch := hexDigitChar_ne_B (b % 256 / 16)
    have hb : ('B' == hexDigitChar (b % 256 / 16)) = false :=
      beq_eq_false_iff_ne.mpr (Ne.symm hch)
    constructor <;>
      · show List.isPrefixOf _ (hexDigitChar (b % 256 / 16) :: _) = false
        simp [List.isPrefixOf, hb]

/-- C10: a Generator obtained via NewGenerator from a BLAKE3ZCC
(`B3Z:`) or BLAKE3ZCC-manifest (`B3ZM:`) digest produces, after any
sequence of writes, a digest whose hash string is bare hexadecimal with
no algorithm prefix: it is no longer identified as BLAKE3ZCC, its
ToManifest is always not-ok, and its hash string differs from the
prefixed hash string of the digest the Generator was derived from. -/
theorem generator_sum_loses_algorithm (d : Digest)
    (hd : goStartsWith d.hashString "B3Z:" = true ∨
          goStartsWith d.hashString "B3ZM:" = true)
    (writes : List (List Nat)) :
    ∀ gen ∈ d.newGenerator, ∀ g ∈ (writes.foldl Generator.write gen).sum,
      goStartsWith g.hashString "B3Z:" = false ∧
      goStartsWith g.hashString "B3ZM:" = false ∧
      (∀ B : Int, g.toManifest B = none) ∧
      g.hashString ≠ d.hashString := by
  intro gen _ g hg
  rw [Generator.sum, Option.mem_def, Option.map_eq_some'] at hg
  obtain ⟨hs, _, hEq⟩ := hg
  have hhash : g.hashString = hexEncode hs := by
    rw [← hEq]
    rfl
  obtain ⟨h1, h2⟩ := hexEncode_not_b3z hs
  refine ⟨by rw [hhash]; exact h1, by rw [hhash]; exact h2, ?_, ?_⟩
  · intro B
    unfold Digest.toManifest
    rw [if_pos (by rw [hhash, h1]; exact Bool.false_ne_true)]
  · intro heq
    rcases hd with hbad | hbad
    · rw [← heq, hhash, h1] at hbad
      exact Bool.false_ne_true hbad
    · rw [← heq, hhash, h2] at hbad
      exact Bool.false_ne_true hbad

/-- Digest used in the C10 witness. -/
def c10WitnessDigest : Digest :=
  { sizeBytes := 5, hashString := "B3Z:00ff", instanceName := "x" }

/-- Witness for `generator_sum_loses_algorithm` at a concrete BLAKE3ZCC
digest with no writes. -/
theorem generator_sum_loses_algorithm_witness :
    ∃ gen, c10WitnessDigest.newGenerator = some gen ∧
      ∃ g, (([] : List (List Nat)).foldl Generator.write gen).sum = some g ∧
        goStartsWith g.hashString "B3Z:" = false ∧
        goStartsWith g.hashString "B3ZM:" = false ∧
        (∀ B : Int, g.toManifest B = none) ∧
        g.hashString ≠ c10WitnessDigest.hashString := by
  refine ⟨_, rfl, _, rfl, ?_⟩
  exact generator_sum_loses_algorithm c10WitnessDigest (Or.inl (by decide)) []
    _ (Option.mem_def.mpr rfl) _ (Option.mem_def.mpr rfl)

/-! ## Buffer layer (pkg/blobstore/buffer) -/

/-- Outcome of a ReadAt-style call: success, io.EOF, or an error. -/
inductive ReadResult where
  | ok
  | eof
  | err (s : Status)
  deriving DecidableEq, Repr

/-- Modelled from the spec: the ReadAt behavior of the small Buffer
objects a SmallBufferFetcher returns — error buffers
(NewBufferFromError) and validated byte-slice buffers
(NewValidatedBufferFromByteSlice), whose implementations are not among
the sources at hand. Per spec §4.4: a negative offset fails
InvalidArgument; reading at or past end-of-data yields end-of-stream
with however many bytes were actually copied. `p` is the capacity of the
destination slice; the copied bytes are returned. -/
def smallBufferReadAt (buf : Except Status (List Nat)) (p : Nat) (off : Int) :
    List Nat × ReadResult :=
  match buf with
  | .error s => ([], .err s)
  | .ok content =>
    if off < 0 then
      ([], .err ⟨.invalidArgument, "Negative read offset: " ++ toString off⟩)
    else
      let bytes := (content.drop off.toNat).take p
      if bytes.length < p then (bytes, .eof) else (bytes, .ok)

/-- The loop of casConcatenatingBuffer.ReadAt. The Go loop terminates
whenever the fetcher honors its contract (at least one byte at the
requested offset); the fuel argument makes the recursion well-founded,
and exhausting it marks a run on which the Go loop would not have made
progress. On a small-buffer error other than io.EOF the loop returns the
bytes copied so far with that error; io.EOF from a small buffer is
swallowed and the loop continues (re-checking `off ≥ size`). -/
def casReadAtLoop (sizeBytes : Int) (fetcher : Int → Except Status (List Nat) × Int) :
    Nat → Nat → Int → List Nat → List Nat × ReadResult
  | 0, _, _, acc => (acc, .err ⟨.loopLimit, "model fuel exhausted"⟩)
  | fuel + 1, p, off, acc =>
    if sizeBytes ≤ off then (acc, .eof)
    else if p = 0 then (acc, .ok)
    else
      let fetched := fetcher off
      let rd := smallBufferReadAt fetched.1 p (off - fetched.2)
      match rd.2 with
      | .err s => (acc ++ rd.1, .err s)
      | _ => casReadAtLoop sizeBytes fetcher fuel (p - rd.1.length)
          (off + (rd.1.length : Int)) (acc ++ rd.1)

/-- casConcatenatingBuffer.ReadAt (part_000 lines 50-73): reject
negative offsets, then loop fetching small buffers. -/
def casReadAt (sizeBytes : Int) (fetcher : Int → Except Status (List Nat) × Int)
    (p : Nat) (off : Int) (fuel : Nat) : List Nat × ReadResult :=
  if off < 0 then
    ([], .err ⟨.invalidArgument, "Negative read offset: " ++ toString off⟩)
  else
    casReadAtLoop sizeBytes fetcher fuel p off []

/-- Modelled from the spec: reading the input buffer through
`ToChunkReader(0, ChunkSizeExactly(k))` yields consecutive chunks of
exactly `k` bytes, the last possibly shorter (chunk_policy.go's
documented contract; the byte-slice buffer's chunk reader is not among
the sources at hand). -/
def chunksExactAux (k : Nat) : Nat → List Nat → List (List Nat)
  | 0, _ => []
  | fuel + 1, b =>
    if b.isEmpty then []
    else b.take k :: chunksExactAux k fuel (b.drop k)

/-- See `chunksExactAux`; a zero block size would make the Go read loop
spin (it cannot occur: NewDecomposingBlobAccess is configured with a
positive block size). -/
def chunksExact (k : Nat) (b : List Nat) : List (List Nat) :=
  if k = 0 then [] else chunksExactAux k (b.length + 1) b

/-! ## Blob access (pkg/blobstore) -/

/-- The backing-store collaborator contract (spec §6), threaded through
an explicit state `σ` so that an instantiation can log which calls are
made. `get` returns the materialized bytes or the error its Buffer
carries. -/
structure BlobAccess (σ : Type) where
  get : σ → Digest → σ × Except Status (List Nat)
  put : σ → Digest → List Nat → σ × Except Status Unit
  findMissing : σ → List Digest → σ × Except Status (List Digest)

/-- Buffer.ToByteSlice(maximumSizeBytes) on a fetched buffer: propagate
the buffer's error, or fail InvalidArgument when the contents exceed the
maximum (message as in the repository's own tests). -/
def toByteSlice (maximumSizeBytes : Int) (r : Except Status (List Nat)) :
    Except Status (List Nat) :=
  match r with
  | .error s => .error s
  | .ok bytes =>
    if maximumSizeBytes < (bytes.length : Int) then
      .error ⟨.invalidArgument, "Buffer is " ++ toString bytes.length ++
        " bytes in size, while a maximum of " ++ toString maximumSizeBytes ++
        " bytes is permitted"⟩
    else .ok bytes

/-- NewDecomposingBlobAccess configuration. -/
structure DecomposingConfig where
  blockSizeBytes : Int
  maximumManifestSizeBytes : Int
  deriving DecidableEq, Repr

/-- The per-block loop of decomposingBlobAccess.Put: append each block's
node to the manifest, store the block under the derived digest, wrap a
failure with the offset and digest. -/
def putBlocks {σ : Type} (base : BlobAccess σ) (mp : ManifestParser) :
    σ → List Nat → Int → List (List Nat) → σ × Except Status (List Nat)
  | st, manifest, _, [] => (st, .ok manifest)
  | st, manifest, offset, block :: rest =>
    let md := mp.appendBlockDigest manifest block
    let pr := base.put st md.2 block
    match pr.2 with
    | .error e =>
      (pr.1, .error (statusWrap ("Failed to store block at offset " ++
        toString offset ++ " with digest " ++ md.2.value) e))
    | .ok _ => putBlocks base mp pr.1 md.1 (offset + (block.length : Int)) rest

/-- decomposingBlobAccess.Put. -/
def decomposingPut {σ : Type} (cfg : DecomposingConfig) (base : BlobAccess σ)
    (st : σ) (d : Digest) (b : List Nat) : σ × Except Status Unit :=
  match d.toManifest cfg.blockSizeBytes with
  | some pr =>
    if cfg.maximumManifestSizeBytes < pr.1.sizeBytes then
      (st, .error ⟨.invalidArgument, "Buffer requires a manifest that is " ++
        toString pr.1.sizeBytes ++ " bytes in size, while a maximum of " ++
        toString cfg.maximumManifestSizeBytes ++ " bytes is permitted"⟩)
    else
      match putBlocks base pr.2 st [] 0 (chunksExact cfg.blockSizeBytes.toNat b) with
      | (st1, .error e) => (st1, .error e)
      | (st1, .ok manifest) =>
        let mr := base.put st1 pr.1 manifest
        match mr.2 with
        | .error e => (mr.1, .error (statusWrap "Failed to store manifest" e))
        | .ok _ => (mr.1, .ok ())
  | none => base.put st d b

/-! ## C6 -/

/-- C6: when a digest is decomposable but its manifest would exceed the
configured maximum manifest size, Put fails with InvalidArgument and the
backing store's state is returned untouched — since this holds for every
state type and every backing store, no Get or Put was issued to the
backing store (an instrumented store would have recorded it in the
state), and no block of the input was read from it. -/
theorem decomposingPut_manifest_too_large {σ : Type} (cfg : DecomposingConfig)
    (base : BlobAccess σ) (st : σ) (d : Digest) (b : List Nat)
    (pr : Digest × ManifestParser)
    (hm : d.toManifest cfg.blockSizeBytes = some pr)
    (hsize : cfg.maximumManifestSizeBytes < pr.1.sizeBytes) :
    (decomposingPut cfg base st d b).1 = st ∧
    errCode (decomposingPut cfg base st d b).2 = some .invalidArgument := by
  unfold decomposingPut
  rw [hm]
  dsimp only
  rw [if_pos hsize]
  exact ⟨rfl, rfl⟩

/-- A backing store that records every call it receives. -/
def loggingBase : BlobAccess (List String) :=
  { get := fun st d => (st ++ ["get " ++ d.value], .error ⟨.notFound, "Object not found"⟩),
    put := fun st d _ => (st ++ ["put " ++ d.value], .ok ()),
    findMissing := fun st _ => (st ++ ["findMissing"], .ok []) }

/-- The blob digest of the repository's own TooBig Put test: 8 KiB
blocks, 2 MiB maximum manifest size, blob of 256 MiB - 8 KiB + 1 KiB. -/
def c6Digest : Digest :=
  { sizeBytes := 268428288,
    hashString := "B3Z:469516160d23076b433cc1dd5d1dd628",
    instanceName := "instance" }

/-- Witness for `decomposingPut_manifest_too_large`: the TooBig test
configuration; the logging store records no call. -/
theorem decomposingPut_manifest_too_large_witness :
    (decomposingPut ⟨8192, 2097152⟩ loggingBase [] c6Digest []).1 = [] ∧
    errCode (decomposingPut ⟨8192, 2097152⟩ loggingBase [] c6Digest []).2 =
      some .invalidArgument :=
  decomposingPut_manifest_too_large ⟨8192, 2097152⟩ loggingBase [] c6Digest []
    ({ sizeBytes := 2097185,
       hashString := "B3ZM:469516160d23076b433cc1dd5d1dd628",
       instanceName := "instance" },
     { instanceName := "instance", blobSizeBytes := 268428288,
       blockSizeBytes := 8192, hashSizeBytes := 16 })
    (by decide) (by decide)

/-! ## Decomposing Get (pkg/blobstore decomposing blob access) -/

/-- A stateless view of the backing store, used by the Get and
FindMissing models: the decomposing layer itself keeps no state, and the
collaborating store is external (spec §1), so its two read operations
are modelled as pure functions. -/
structure PureBase where
  get : Digest → Except Status (List Nat)
  findMissing : List Digest → Except Status (List Digest)

/-- decomposingBlobAccess.Get, materialized through ReadAt of the
returned Buffer: a non-decomposable digest delegates to the backing
store verbatim; otherwise the manifest is fetched and fully materialized
up front (bounded by the maximum manifest size) and the result is the
concatenating buffer whose fetch callback maps an offset through
GetBlockDigest to a backing-store Get. -/
def decomposingGetReadAt (cfg : DecomposingConfig) (base : PureBase) (d : Digest)
    (p : Nat) (off : Int) (fuel : Nat) : List Nat × ReadResult :=
  match d.toManifest cfg.blockSizeBytes with
  | some pr =>
    match toByteSlice cfg.maximumManifestSizeBytes (base.get pr.1) with
    | .error e => ([], .err (statusWrap "Failed to load manifest" e))
    | .ok manifest =>
      casReadAt d.sizeBytes
        (fun offset =>
          let bd := pr.2.getBlockDigest manifest offset
          (base.get bd.1, bd.2))
        p off fuel
  | none => smallBufferReadAt (base.get d) p off

/-! ## C1 -/

/-- Association-list lookup with digest keys. -/
def assocLookup : List (Digest × List Nat) → Digest → Option (List Nat)
  | [], _ => none
  | (k, v) :: rest, d => if k = d then some v else assocLookup rest d

/-- A backing store over an in-memory map from digests to contents:
Get of an absent digest yields a NotFound error buffer, Put records the
object. -/
def storeBase : BlobAccess (List (Digest × List Nat)) :=
  { get := fun st d =>
      (st, match assocLookup st d with
        | some v => .ok v
        | none => .error ⟨.notFound, "Object not found"⟩),
    put := fun st d v => (st ++ [(d, v)], .ok ()),
    findMissing := fun st ds =>
      (st, .ok (ds.filter (fun d => (assocLookup st d).isNone))) }

/-- The stateless read view of `storeBase` at a given store state. -/
def pureOfStore (st : List (Digest × List Nat)) : PureBase :=
  { get := fun d => (storeBase.get st d).2,
    findMissing := fun ds => (storeBase.findMissing st ds).2 }

/-- The C1 counterexample blob: 2050 zero bytes, decomposed at block
size 1025 (the block size divides the blob size). -/
def c1Blob : List Nat := List.replicate 2050 0

/-- The C1 blob digest. -/
def c1Digest : Digest :=
  { sizeBytes := 2050,
    hashString := "B3Z:00112233445566778899aabbccddeeff00112233445566778899aabbccddeeff",
    instanceName := "x" }

/-- The decomposing configuration of the C1 counterexample. -/
def c1Cfg : DecomposingConfig := ⟨1025, 2097152⟩

/-- Unfolding step of the chunk reader loop on remaining input. -/
theorem chunksExactAux_cons (k fuel : Nat) (b : List Nat) (hb : b.isEmpty = false) :
    chunksExactAux k (fuel + 1) b = b.take k :: chunksExactAux k fuel (b.drop k) := by
  rw [chunksExactAux]
  rw [hb]
  rfl

/-- A non-empty replicate list is not empty. -/
theorem replicate_isEmpty_false (n : Nat) (a : Nat) :
    (List.replicate (n + 1) a).isEmpty = false := by
  rw [List.replicate_succ]
  rfl

/-- An in-range read of a replicate list. -/
theorem getD_replicate (a d : Nat) :
    ∀ (n i : Nat), i < n → (List.replicate n a).getD i d = a
  | 0, _, h => absurd h (by omega)
  | n + 1, 0, _ => by rw [List.replicate_succ]; rfl
  | n + 1, i + 1, h => by
    rw [List.replicate_succ]
    exact getD_replicate a d n i (by omega)

set_option maxRecDepth 2000 in
/-- Reading the 2050-byte C1 blob in exact chunks of the block size
yields two full 1025-byte blocks. -/
theorem c1_chunks : chunksExact c1Cfg.blockSizeBytes.toNat c1Blob =
    [List.replicate 1025 0, List.replicate 1025 0] := by
  have hk : c1Cfg.blockSizeBytes.toNat = 1025 := rfl
  rw [hk]
  unfold chunksExact
  rw [if_neg (by decide)]
  have hlen : c1Blob.length + 1 = 2050 + 1 := by
    rw [show c1Blob.length = 2050 from by
      unfold c1Blob; rw [List.length_replicate]]
  rw [hlen]
  rw [show c1Blob = List.replicate (2049 + 1) 0 from rfl]
  rw [chunksExactAux_cons _ _ _ (replicate_isEmpty_false _ _)]
  rw [List.take_replicate, List.drop_replicate]
  rw [show min 1025 (2049 + 1) = 1025 from by norm_num]
  rw [show (2049 + 1) - 1025 = 1024 + 1 from by norm_num]
  rw [show (2050 : Nat) = 2049 + 1 from rfl]
  rw [chunksExactAux_cons _ _ _ (replicate_isEmpty_false _ _)]
  rw [List.take_replicate, List.drop_replicate]
  rw [show min 1025 (1024 + 1) = 1025 from by norm_num]
  rw [show (1024 + 1) - 1025 = 0 from by norm_num]
  rw [List.replicate_zero]
  rw [show (2049 : Nat) = 2048 + 1 from rfl]
  rw [show chunksExactAux 1025 (2048 + 1) [] = [] from by
    rw [chunksExactAux]; rfl]

/-- The manifest digest `ToManifest` derives for the C1 blob: 2 blocks
of 64 manifest bytes each (no chunk-node extra, since 2050 mod 1025 is
0). -/
def c1MDigest : Digest :=
  { sizeBytes := 128,
    hashString := "B3ZM:00112233445566778899aabbccddeeff00112233445566778899aabbccddeeff",
    instanceName := "x" }

/-- The manifest parser `ToManifest` derives for the C1 blob. -/
def c1MP : ManifestParser :=
  { instanceName := "x", blobSizeBytes := 2050, blockSizeBytes := 1025, hashSizeBytes := 32 }

/-- ToManifest on the C1 blob digest. -/
theorem c1_toManifest : c1Digest.toManifest c1Cfg.blockSizeBytes = some (c1MDigest, c1MP) := by
  decide

/-- One 1025-byte block of the C1 blob. -/
def c1Block : List Nat := List.replicate 1025 0

/-- Appending the first block's node to the fresh manifest. -/
def c1Append1 : List Nat × Digest := c1MP.appendBlockDigest [] c1Block

/-- Appending the second block's node. -/
def c1Append2 : List Nat × Digest := c1MP.appendBlockDigest c1Append1.1 c1Block

/-- The backing store's contents after the C1 Put: the two blocks under
their derived digests and the manifest under the manifest digest. -/
def c1FinalStore : List (Digest × List Nat) :=
  [(c1Append1.2, c1Block), (c1Append2.2, c1Block), (c1MDigest, c1Append2.1)]

set_option maxRecDepth 100000 in
/-- Put of the C1 blob succeeds and stores the two blocks and the
manifest. -/
theorem c1_put : decomposingPut c1Cfg storeBase [] c1Digest c1Blob = (c1FinalStore, .ok ()) := by
  unfold decomposingPut
  rw [c1_toManifest]
  dsimp only
  rw [if_neg (by decide)]
  rw [c1_chunks]
  rfl

set_option maxRecDepth 100000 in
/-- Get of the C1 blob at offset 1025 fails: the fetch callback derives
the final block's digest with size 2050 mod 1025 = 0 from a misparsed
manifest entry, and the store holds no object under that digest. -/
theorem c1_get : (decomposingGetReadAt c1Cfg (pureOfStore c1FinalStore) c1Digest 1 1025 10).2
    = .err ⟨.notFound, "Object not found"⟩ := by
  rfl

/-- C1 fails on the code when the block size divides the blob's length:
Put of the 2050-byte zero blob at block size 1025 succeeds (two blocks
and the manifest are stored), but Get's fetch callback derives the final
block's digest with size `2050 mod 1025 = 0` from a misparsed manifest
entry, the backing store holds no such object, and reading one byte at
offset 1025 yields a NotFound error instead of the blob's byte 0 — so
Put followed by Get does not reproduce `b` (in Go the misparse is a
slice-bounds panic). -/
theorem decomposing_put_get_roundtrip_fails :
    (decomposingPut c1Cfg storeBase [] c1Digest c1Blob).2 = .ok () ∧
    (decomposingGetReadAt c1Cfg
        (pureOfStore (decomposingPut c1Cfg storeBase [] c1Digest c1Blob).1)
        c1Digest 1 1025 10).2 = .err ⟨.notFound, "Object not found"⟩ ∧
    c1Blob.getD 1025 255 = 0 := by
  refine ⟨by rw [c1_put], ?_, ?_⟩
  · rw [show (decomposingPut c1Cfg storeBase [] c1Digest c1Blob).1 = c1FinalStore from by
      rw [c1_put]]
    exact c1_get
  · unfold c1Blob
    exact getD_replicate 0 255 2050 1025 (by omega)

/-! ## C8 -/

/-- The documented SmallBufferFetcher contract (part_000 lines 13-25)
together with the layout guarantee the decomposing Get establishes: for
every in-range offset the fetcher returns a loaded buffer holding at
least one byte at the requested offset, located inside the object. -/
def FetcherContract (sizeBytes : Int)
    (fetcher : Int → Except Status (List Nat) × Int) : Prop :=
  ∀ off : Int, 0 ≤ off → off < sizeBytes →
    ∃ content start, fetcher off = (.ok content, start) ∧
      0 ≤ start ∧ start ≤ off ∧ off < start + content.length ∧
      start + content.length ≤ sizeBytes

/-- Under the fetcher contract, the ReadAt loop always reaches
end-of-stream, copying exactly the remaining bytes. -/
theorem casReadAtLoop_reaches_eof (sizeBytes : Int)
    (fetcher : Int → Except Status (List Nat) × Int)
    (hc : FetcherContract sizeBytes fetcher) :
    ∀ (fuel : Nat) (off : Int) (p : Nat) (acc : List Nat),
      0 ≤ off → off ≤ sizeBytes →
      (sizeBytes - off).toNat < fuel →
      (sizeBytes - off).toNat ≤ p →
      ∃ bs, casReadAtLoop sizeBytes fetcher fuel p off acc = (acc ++ bs, .eof) ∧
        bs.length = (sizeBytes - off).toNat := by
  intro fuel
  induction fuel with
  | zero =>
    intro off p acc h0 hs hf hp
    omega
  | succ fuel ih =>
    intro off p acc h0 hs hf hp
    simp only [casReadAtLoop]
    by_cases hoff : sizeBytes ≤ off
    · rw [if_pos hoff]
      refine ⟨[], by simp, ?_⟩
      simp only [List.length_nil]
      omega
    · rw [if_neg hoff]
      rw [if_neg (by omega)]
      obtain ⟨content, start, hfetch, hstart0, hstart, hcov, hbound⟩ :=
        hc off h0 (by omega)
      rw [hfetch]
      dsimp only
      simp only [smallBufferReadAt]
      rw [if_neg (by omega)]
      have hrel : (off - start).toNat < content.length := by omega
      have hn1 : 1 ≤ ((content.drop (off - start).toNat).take p).length := by
        simp only [List.length_take, List.length_drop]
        omega
      have hnlen : (((content.drop (off - start).toNat).take p).length : Int) ≤
          sizeBytes - off := by
        simp only [List.length_take, List.length_drop]
        omega
      by_cases hend : ((content.drop (off - start).toNat).take p).length < p
      · rw [if_pos hend]
        dsimp only
        obtain ⟨bs, heq, hlen⟩ := ih
          (off + (((content.drop (off - start).toNat).take p).length : Int))
          (p - ((content.drop (off - start).toNat).take p).length)
          (acc ++ (content.drop (off - start).toNat).take p)
          (by omega) (by
            simp only [List.length_take, List.length_drop] at *
            omega) (by
            simp only [List.length_take, List.length_drop] at *
            omega) (by
            simp only [List.length_take, List.length_drop] at *
            omega)
        refine ⟨(content.drop (off - start).toNat).take p ++ bs, ?_, ?_⟩
        · rw [heq, List.append_assoc]
        · simp only [List.length_append]
          omega
      · rw [if_neg hend]
        dsimp only
        obtain ⟨bs, heq, hlen⟩ := ih
          (off + (((content.drop (off - start).toNat).take p).length : Int))
          (p - ((content.drop (off - start).toNat).take p).length)
          (acc ++ (content.drop (off - start).toNat).take p)
          (by omega) (by
            simp only [List.length_take, List.length_drop] at *
            omega) (by
            simp only [List.length_take, List.length_drop] at *
            omega) (by
            simp only [List.length_take, List.length_drop] at *
            omega)
        refine ⟨(content.drop (off - start).toNat).take p ++ bs, ?_, ?_⟩
        · rw [heq, List.append_assoc]
        · simp only [List.length_append]
          omega

/-- C8: casConcatenatingBuffer.ReadAt — (1) every call with a negative
offset fails InvalidArgument with zero bytes copied, for any fetcher;
(2) every call at or past the declared size yields end-of-stream with
zero bytes copied, for any fetcher; (3) under the SmallBufferFetcher
contract, an in-range read whose destination reaches past end-of-data
yields end-of-stream with exactly the remaining bytes copied. -/
theorem casReadAt_spec (sizeBytes : Int)
    (fetcher : Int → Except Status (List Nat) × Int) :
    (∀ (p : Nat) (off : Int) (fuel : Nat), off < 0 →
      casReadAt sizeBytes fetcher p off fuel =
        ([], .err ⟨.invalidArgument, "Negative read offset: " ++ toString off⟩)) ∧
    (∀ (p : Nat) (off : Int) (fuel : Nat), 0 ≤ off → sizeBytes ≤ off → 1 ≤ fuel →
      casReadAt sizeBytes fetcher p off fuel = ([], .eof)) ∧
    (FetcherContract sizeBytes fetcher →
      ∀ (p : Nat) (off : Int) (fuel : Nat), 0 ≤ off → off < sizeBytes →
        (sizeBytes - off).toNat ≤ p → (sizeBytes - off).toNat < fuel →
        ∃ bs, casReadAt sizeBytes fetcher p off fuel = (bs, .eof) ∧
          bs.length = (sizeBytes - off).toNat) := by
  refine ⟨?_, ?_, ?_⟩
  · intro p off fuel hneg
    unfold casReadAt
    rw [if_pos hneg]
  · intro p off fuel h0 hs hf
    unfold casReadAt
    rw [if_neg (by omega)]
    obtain ⟨f, rfl⟩ : ∃ f, fuel = f + 1 := ⟨fuel - 1, by omega⟩
    simp only [casReadAtLoop]
    rw [if_pos hs]
  · intro hc p off fuel h0 hs hp hf
    unfold casReadAt
    rw [if_neg (by omega)]
    obtain ⟨bs, heq, hlen⟩ := casReadAtLoop_reaches_eof sizeBytes fetcher hc fuel off p []
      h0 (by omega) hf hp
    exact ⟨bs, by rw [heq]; simp, hlen⟩

/-- The fetcher of the spec's concrete scenario: "Hello" assembled from
the fragments "He", "l", "lo" at offsets 0, 2 and 3. -/
def helloFetcher (off : Int) : Except Status (List Nat) × Int :=
  if off < 2 then (.ok [72, 101], 0)
  else if off < 3 then (.ok [108], 2)
  else (.ok [108, 111], 3)

/-- Witness for `casReadAt_spec` on the "Hello" scenario: a negative
offset fails InvalidArgument, offset 5 = size yields end-of-stream with
nothing copied, and a 4-byte destination read at offset 1 copies the 4
remaining bytes and ends the stream. -/
theorem casReadAt_spec_witness :
    casReadAt 5 helloFetcher 3 (-1) 8 =
      ([], .err ⟨.invalidArgument, "Negative read offset: " ++ toString (-1 : Int)⟩) ∧
    casReadAt 5 helloFetcher 3 5 8 = ([], .eof) ∧
    (∃ bs, casReadAt 5 helloFetcher 4 1 8 = (bs, .eof) ∧ bs.length = (5 - (1:Int)).toNat) := by
  refine ⟨(casReadAt_spec 5 helloFetcher).1 3 (-1) 8 (by decide),
          (casReadAt_spec 5 helloFetcher).2.1 3 5 8 (by decide) (by decide) (by decide),
          (casReadAt_spec 5 helloFetcher).2.2 ?_ 4 1 8 (by decide) (by decide) (by decide) (by decide)⟩
  intro off h0 h5
  interval_cases off
  · exact ⟨[72, 101], 0, rfl, by decide, by decide, by decide, by decide⟩
  · exact ⟨[72, 101], 0, rfl, by decide, by decide, by decide, by decide⟩
  · exact ⟨[108], 2, rfl, by decide, by decide, by decide, by decide⟩
  · exact ⟨[108, 111], 3, rfl, by decide, by decide, by decide, by decide⟩
  · exact ⟨[108, 111], 3, rfl, by decide, by decide, by decide, by decide⟩

/-! ## Decomposing FindMissing (pkg/blobstore decomposing blob access) -/

/-- Modelled from the spec: digest.SetBuilder.Add — a set is a list of
distinct digests, Add inserts a digest that is not yet present
(pkg/digest's set implementation is not among the sources at hand; only
its membership semantics matter for the claims settled here). -/
def setAdd (s : List Digest) (d : Digest) : List Digest :=
  if d ∈ s then s else s ++ [d]

/-- blobToCheck. -/
structure BlobToCheck where
  blobDigest : Digest
  manifestParser : ManifestParser

/-- Append one blob under its manifest digest in summariesToCheck
(a Go map of slices; the model keeps insertion order). -/
def assocAppend : List (Digest × List BlobToCheck) → Digest → BlobToCheck →
    List (Digest × List BlobToCheck)
  | [], k, v => [(k, [v])]
  | (k1, vs) :: rest, k, v =>
    if k1 = k then (k1, vs ++ [v]) :: rest else (k1, vs) :: assocAppend rest k v

/-- Look a manifest digest up in summariesToCheck. -/
def assocFind : List (Digest × List BlobToCheck) → Digest → Option (List BlobToCheck)
  | [], _ => none
  | (k, vs) :: rest, d => if k = d then some vs else assocFind rest d

/-- The partition pass of decomposingBlobAccess.FindMissing: replace
every decomposable digest by its manifest digest in the initial
existence check, remembering which blobs each manifest accounts for. -/
def partitionDigests (cfg : DecomposingConfig) (digests : List Digest) :
    List (Digest × List BlobToCheck) × List Digest :=
  digests.foldl (fun acc blobDigest =>
    match blobDigest.toManifest cfg.blockSizeBytes with
    | some pr => (assocAppend acc.1 pr.1 ⟨blobDigest, pr.2⟩, setAdd acc.2 pr.1)
    | none => (acc.1, setAdd acc.2 blobDigest)) ([], [])

/-- The summariesToCheck map built by FindMissing's first loop. -/
def summariesToCheck (cfg : DecomposingConfig) (digests : List Digest) :
    List (Digest × List BlobToCheck) :=
  (partitionDigests cfg digests).1

/-- The initialDigests set built by FindMissing's first loop. -/
def initialDigests (cfg : DecomposingConfig) (digests : List Digest) : List Digest :=
  (partitionDigests cfg digests).2

/-- findMissingQueue: the batching accumulator; pending maps a block
digest to the set of composed blobs containing it (a Go map of maps). -/
structure FindMissingQueue where
  missingComposed : List Digest
  pending : List (Digest × List Digest)

/-- Record one owner of a block digest in the pending batch. -/
def pendingInsert : List (Digest × List Digest) → Digest → Digest →
    List (Digest × List Digest)
  | [], bk, bl => [(bk, [bl])]
  | (k, vs) :: rest, bk, bl =>
    if k = bk then (k, setAdd vs bl) :: rest else (k, vs) :: pendingInsert rest bk bl

/-- Look a block digest's owners up in the pending batch. -/
def pendingFind : List (Digest × List Digest) → Digest → Option (List Digest)
  | [], _ => none
  | (k, vs) :: rest, d => if k = d then some vs else pendingFind rest d

/-- findMissingQueue.finalize: one combined existence check over the
pending block digests; owners of missing blocks become missing. -/
def queueFinalize (base : PureBase) (q : FindMissingQueue) :
    Except Status FindMissingQueue :=
  match base.findMissing (q.pending.foldl (fun acc kv => setAdd acc kv.1) []) with
  | .error e => .error e
  | .ok missingBlocks =>
    .ok { q with missingComposed :=
      missingBlocks.foldl (fun acc bk =>
        ((pendingFind q.pending bk).getD []).foldl setAdd acc) q.missingComposed }

/-- findMissingQueue.add: flush a full batch, then record the block. -/
def queueAdd (base : PureBase) (batchSize : Nat) (q : FindMissingQueue)
    (blockDigest blobDigest : Digest) : Except Status FindMissingQueue :=
  if batchSize ≤ q.pending.length then
    match queueFinalize base q with
    | .error e => .error e
    | .ok q1 => .ok { q1 with pending := pendingInsert [] blockDigest blobDigest }
  else .ok { q with pending := pendingInsert q.pending blockDigest blobDigest }

/-- The per-blob block enumeration loop of FindMissing: walk the blob by
`currentOffset = blockOffset + blockDigest.sizeBytes`. For a blob whose
size the block size divides, GetBlockDigest returns a digest of size 0
for the final block and the Go loop never terminates; the fuel (one unit
per block plus one) makes the recursion well-founded, and exhausting it
marks exactly those runs. -/
def enumBlocksLoop (base : PureBase) (batchSize : Nat) (mp : ManifestParser)
    (manifest : List Nat) (blobDigest : Digest) (sizeBytes : Int) :
    Nat → Int → FindMissingQueue → Except Status FindMissingQueue
  | 0, _, _ => .error ⟨.loopLimit, "model fuel exhausted: the Go loop would not terminate"⟩
  | fuel + 1, currentOffset, q =>
    if currentOffset < sizeBytes then
      let bd := mp.getBlockDigest manifest currentOffset
      match queueAdd base batchSize q bd.1 blobDigest with
      | .error e => .error e
      | .ok q1 => enumBlocksLoop base batchSize mp manifest blobDigest sizeBytes fuel
          (bd.2 + bd.1.sizeBytes) q1
    else .ok q

/-- Enumerate the blocks of every blob a loaded manifest accounts for. -/
def enumBlobList (base : PureBase) (batchSize : Nat) (manifest : List Nat) :
    List BlobToCheck → FindMissingQueue → Except Status FindMissingQueue
  | [], q => .ok q
  | bt :: rest, q =>
    match enumBlocksLoop base batchSize bt.manifestParser manifest bt.blobDigest
        bt.blobDigest.sizeBytes (bt.blobDigest.sizeBytes.toNat + 1) 0 q with
    | .error e => .error e
    | .ok q1 => enumBlobList base batchSize manifest rest q1

/-- The manifest-loading loop of FindMissing: load each manifest that
was reported present; on success enumerate its blocks, on NotFound count
its blobs as missing, on any other error propagate it wrapped. -/
def processSummaries (cfg : DecomposingConfig) (base : PureBase) :
    List (Digest × List BlobToCheck) → FindMissingQueue →
    Except Status FindMissingQueue
  | [], q => .ok q
  | (manifestDigest, blobsToCheck) :: rest, q =>
    match toByteSlice cfg.maximumManifestSizeBytes (base.get manifestDigest) with
    | .ok manifest =>
      match enumBlobList base 1000 manifest blobsToCheck q with
      | .error e => .error e
      | .ok q1 => processSummaries cfg base rest q1
    | .error e =>
      if e.code = .notFound then
        processSummaries cfg base rest
          { q with missingComposed :=
              blobsToCheck.foldl (fun a bt => setAdd a bt.blobDigest) q.missingComposed }
      else .error (statusWrap ("Failed to load manifest " ++ manifestDigest.value) e)

/-- decomposingBlobAccess.FindMissing. The requested set is given as its
list of digests; the result is the set (as a list without duplicates) of
requested digests found missing. -/
def decomposingFindMissing (cfg : DecomposingConfig) (base : PureBase)
    (digests : List Digest) : Except Status (List Digest) :=
  match base.findMissing (initialDigests cfg digests) with
  | .error e => .error e
  | .ok missingInitially =>
    let missingComposed0 := missingInitially.foldl (fun mc md =>
      ((assocFind (summariesToCheck cfg digests) md).getD []).foldl
        (fun a bt => setAdd a bt.blobDigest) mc) []
    let summaries := (summariesToCheck cfg digests).filter
      (fun kv => decide (¬ kv.1 ∈ missingInitially))
    match processSummaries cfg base summaries ⟨missingComposed0, []⟩ with
    | .error e => .error e
    | .ok q =>
      match queueFinalize base q with
      | .error e => .error e
      | .ok q2 =>
        let missingInitially2 := missingInitially.filter (fun d => decide (d ∈ digests))
        .ok (missingInitially2 ++
          q2.missingComposed.filter (fun d => decide (¬ d ∈ missingInitially2)))

/-! ## C7 -/

theorem mem_setAdd_self (s : List Digest) (d : Digest) : d ∈ setAdd s d := by
  unfold setAdd
  split
  · assumption
  · simp

theorem mem_setAdd_of_mem (s : List Digest) (x d : Digest) (h : d ∈ s) :
    d ∈ setAdd s x := by
  unfold setAdd
  split
  · exact h
  · simp [h]

theorem mem_foldl_setAdd_of_mem {α : Type} (g : α → Digest) :
    ∀ (l : List α) (acc : List Digest) (d : Digest), d ∈ acc →
      d ∈ l.foldl (fun a x => setAdd a (g x)) acc
  | [], _, _, h => h
  | _ :: rest, acc, d, h =>
    mem_foldl_setAdd_of_mem g rest _ d (mem_setAdd_of_mem _ _ _ h)

theorem mem_foldl_setAdd_self {α : Type} (g : α → Digest) :
    ∀ (l : List α) (acc : List Digest) (x : α), x ∈ l →
      g x ∈ l.foldl (fun a x => setAdd a (g x)) acc := by
  intro l
  induction l with
  | nil => intro acc x hx; exact absurd hx (by simp)
  | cons y rest ih =>
    intro acc x hx
    rcases List.mem_cons.mp hx with hxy | hxr
    · subst hxy
      exact mem_foldl_setAdd_of_mem g rest _ _ (mem_setAdd_self _ _)
    · exact ih _ x hxr

/-- When every remaining manifest load reports NotFound, the loop
completes, leaves the batch untouched and counts every accounted blob
as missing. -/
theorem processSummaries_all_notfound (cfg : DecomposingConfig) (base : PureBase) :
    ∀ (ss : List (Digest × List BlobToCheck)) (q : FindMissingQueue),
      (∀ kv ∈ ss, errCode (base.get kv.1) = some .notFound) →
      ∃ q1, processSummaries cfg base ss q = .ok q1 ∧
        q1.pending = q.pending ∧
        (∀ d ∈ q.missingComposed, d ∈ q1.missingComposed) ∧
        (∀ kv ∈ ss, ∀ bt ∈ kv.2, bt.blobDigest ∈ q1.missingComposed) := by
  intro ss
  induction ss with
  | nil =>
    intro q _
    exact ⟨q, rfl, rfl, fun d hd => hd, by simp⟩
  | cons kv rest ih =>
    intro q hall
    have hkv := hall kv (by simp)
    obtain ⟨s, hgs, hcode⟩ : ∃ s, base.get kv.1 = .error s ∧ s.code = .notFound := by
      cases hbg : base.get kv.1 with
      | error s =>
        rw [hbg] at hkv
        exact ⟨s, rfl, by simpa [errCode] using hkv⟩
      | ok v =>
        rw [hbg] at hkv
        simp [errCode] at hkv
    obtain ⟨q1, hps, hpend, hmono, hblobs⟩ := ih
      { q with missingComposed :=
          kv.2.foldl (fun a bt => setAdd a bt.blobDigest) q.missingComposed }
      (fun kv2 hkv2 => hall kv2 (by simp [hkv2]))
    refine ⟨q1, ?_, hpend, ?_, ?_⟩
    · show processSummaries cfg base (kv :: rest) q = .ok q1
      rw [show kv = (kv.1, kv.2) from rfl]
      simp only [processSummaries]
      rw [hgs]
      simp only [toByteSlice]
      rw [if_pos hcode]
      exact hps
    · intro d hd
      exact hmono d (mem_foldl_setAdd_of_mem _ kv.2 _ d hd)
    · intro kv2 hkv2 bt hbt
      rcases List.mem_cons.mp hkv2 with h1 | h2
      · subst h1
        exact hmono _ (mem_foldl_setAdd_self _ kv2.2 _ bt hbt)
      · exact hblobs kv2 h2 bt hbt

/-- When every remaining manifest load fails with an error other than
NotFound, the loop propagates the first failure as a wrapped error with
the same (non-NotFound) code. -/
theorem processSummaries_error (cfg : DecomposingConfig) (base : PureBase)
    (ss : List (Digest × List BlobToCheck)) (q : FindMissingQueue)
    (hne : ss ≠ [])
    (hall : ∀ kv ∈ ss, ∃ s, base.get kv.1 = .error s ∧ s.code ≠ .notFound) :
    ∃ e, processSummaries cfg base ss q = .error e ∧ e.code ≠ .notFound := by
  match ss, hne with
  | kv :: rest, _ =>
    obtain ⟨s, hgs, hcode⟩ := hall kv (by simp)
    refine ⟨statusWrap ("Failed to load manifest " ++ kv.1.value) s, ?_, hcode⟩
    rw [show kv = (kv.1, kv.2) from rfl]
    simp only [processSummaries]
    rw [hgs]
    simp only [toByteSlice]
    rw [if_neg hcode]

/-- Finalizing an empty batch consults the backing store once (with the
empty set) and changes nothing. -/
theorem queueFinalize_empty (base : PureBase) (q : FindMissingQueue)
    (hp : q.pending = []) (hempty : base.findMissing [] = .ok []) :
    queueFinalize base q = .ok q := by
  obtain ⟨mc, pend⟩ := q
  simp only at hp
  subst hp
  unfold queueFinalize
  simp only [List.foldl_nil]
  rw [hempty]
  exact rfl

/-- Membership in the assembled result set. -/
theorem mem_result_of_mem_composed (mi2 mc : List Digest) (d : Digest) (h : d ∈ mc) :
    d ∈ mi2 ++ mc.filter (fun x => decide (¬ x ∈ mi2)) := by
  by_cases hm : d ∈ mi2
  · exact List.mem_append.mpr (Or.inl hm)
  · refine List.mem_append.mpr (Or.inr ?_)
    rw [List.mem_filter]
    exact ⟨h, by simpa using hm⟩

/-- C7: during FindMissing with initial check result `M`, (1) if every
manifest reported present fails to load with NotFound (the race the
claim describes), FindMissing still returns successfully and every blob
owned by such a manifest is counted missing; (2) if the loads of the
manifests reported present fail with any error other than NotFound (and
at least one such manifest exists), FindMissing propagates a wrapped
error carrying that non-NotFound code to the caller. -/
theorem findMissing_manifest_load (cfg : DecomposingConfig) (base : PureBase)
    (digests M : List Digest)
    (hfm : base.findMissing (initialDigests cfg digests) = .ok M)
    (hempty : base.findMissing [] = .ok []) :
    ((∀ kv ∈ summariesToCheck cfg digests, ¬ kv.1 ∈ M →
        errCode (base.get kv.1) = some .notFound) →
      ∃ res, decomposingFindMissing cfg base digests = .ok res ∧
        ∀ kv ∈ summariesToCheck cfg digests, ¬ kv.1 ∈ M →
          ∀ bt ∈ kv.2, bt.blobDigest ∈ res) ∧
    ((∀ kv ∈ summariesToCheck cfg digests, ¬ kv.1 ∈ M →
        ∃ s, base.get kv.1 = .error s ∧ s.code ≠ .notFound) →
      (∃ kv ∈ summariesToCheck cfg digests, ¬ kv.1 ∈ M) →
      ∃ e, decomposingFindMissing cfg base digests = .error e ∧
        e.code ≠ .notFound) := by
  constructor
  · intro hget
    unfold decomposingFindMissing
    rw [hfm]
    dsimp only
    obtain ⟨q1, hps, hpend, hmono, hblobs⟩ := processSummaries_all_notfound cfg base
      ((summariesToCheck cfg digests).filter (fun kv => decide (¬ kv.1 ∈ M)))
      ⟨M.foldl (fun mc md =>
        ((assocFind (summariesToCheck cfg digests) md).getD []).foldl
          (fun a bt => setAdd a bt.blobDigest) mc) [], []⟩
      (fun kv hkv => by
        have h2 := List.mem_filter.mp hkv
        exact hget kv h2.1 (by simpa using h2.2))
    rw [hps]
    dsimp only
    rw [queueFinalize_empty base q1 hpend hempty]
    dsimp only
    refine ⟨_, rfl, ?_⟩
    intro kv hkv hnm bt hbt
    refine mem_result_of_mem_composed _ _ _ ?_
    refine hblobs kv ?_ bt hbt
    rw [List.mem_filter]
    exact ⟨hkv, by simpa using hnm⟩
  · intro hget hex
    unfold decomposingFindMissing
    rw [hfm]
    dsimp only
    obtain ⟨kv0, hkv0, hnm0⟩ := hex
    have hne : (summariesToCheck cfg digests).filter
        (fun kv => decide (¬ kv.1 ∈ M)) ≠ [] := by
      refine List.ne_nil_of_mem (a := kv0) ?_
      rw [List.mem_filter]
      exact ⟨hkv0, by simpa using hnm0⟩
    obtain ⟨e, hps, hcode⟩ := processSummaries_error cfg base
      ((summariesToCheck cfg digests).filter (fun kv => decide (¬ kv.1 ∈ M)))
      ⟨M.foldl (fun mc md =>
        ((assocFind (summariesToCheck cfg digests) md).getD []).foldl
          (fun a bt => setAdd a bt.blobDigest) mc) [], []⟩
      hne
      (fun kv hkv => by
        have h2 := List.mem_filter.mp hkv
        exact hget kv h2.1 (by simpa using h2.2))
    rw [hps]
    exact ⟨e, rfl, hcode⟩

/-- A small decomposable digest for exercising FindMissing. -/
def c7Digest : Digest :=
  { sizeBytes := 5, hashString := "B3Z:00ff", instanceName := "x" }

/-- Its manifest digest at block size 2 (3 blocks, last of size 1). -/
def c7MDigest : Digest :=
  { sizeBytes := 225, hashString := "B3ZM:00ff", instanceName := "x" }

/-- The manifest parser ToManifest pairs with c7MDigest. -/
def c7MP : ManifestParser :=
  { instanceName := "x", blobSizeBytes := 5, blockSizeBytes := 2, hashSizeBytes := 2 }

/-- FindMissing configuration at block size 2. -/
def c7Cfg : DecomposingConfig := ⟨2, 2097152⟩

/-- A backing store whose existence checks report everything present but
whose loads all fail NotFound: the race of the claim. -/
def c7BaseNF : PureBase :=
  { get := fun _ => .error ⟨.notFound, "Object not found"⟩,
    findMissing := fun _ => .ok [] }

/-- A backing store whose loads all fail with an internal error. -/
def c7BaseErr : PureBase :=
  { get := fun _ => .error ⟨.internal, "Server on fire"⟩,
    findMissing := fun _ => .ok [] }

theorem c7_summaries :
    summariesToCheck c7Cfg [c7Digest] = [(c7MDigest, [⟨c7Digest, c7MP⟩])] := by
  rfl

theorem findMissing_manifest_load_witness :
    (∃ res, decomposingFindMissing c7Cfg c7BaseNF [c7Digest] = .ok res ∧
        c7Digest ∈ res) ∧
    (∃ e, decomposingFindMissing c7Cfg c7BaseErr [c7Digest] = .error e ∧
        e.code ≠ .notFound) := by
  constructor
  · obtain ⟨res, hok, hall⟩ :=
      (findMissing_manifest_load c7Cfg c7BaseNF [c7Digest] [] rfl rfl).1
        (fun kv _ _ => rfl)
    refine ⟨res, hok, ?_⟩
    exact hall (c7MDigest, [⟨c7Digest, c7MP⟩]) (by rw [c7_summaries]; simp)
      (by simp) ⟨c7Digest, c7MP⟩ (by simp)
  · exact (findMissing_manifest_load c7Cfg c7BaseErr [c7Digest] [] rfl rfl).2
      (fun kv _ _ => ⟨⟨.internal, "Server on fire"⟩, rfl, by decide⟩)
      ⟨(c7MDigest, [⟨c7Digest, c7MP⟩]), by rw [c7_summaries]; simp, by simp⟩
